import Mathlib

/-!
# The share loader of bluelight (`scripts/share-loader.js`)

A shallow embedding of `window.ShareDicomLoader` and the properties of its
worklist construction, head selection, scheduling and completion bookkeeping.

Modelling conventions.

* An attribute record is read only through `rec[tag]?.Value?.[0]` for the four
  tags `0020000D`, `0020000E`, `00080018`, `00200013`; the record is therefore
  the four optional first values.  UID values are strings; an InstanceNumber
  value is an integral number or a string, and `<` on such values is the
  operator of JavaScript (`jsLess`).  A listing is an
  array of such records, a share descriptor an object with `targetType` and
  `targets`.
* JavaScript truthiness of a string-or-undefined value is kept: the empty
  string is falsy, like `undefined`.
* A run of an `async` function is its sequence of observable calls (`Event`)
  together with its completion (`Except`: a thrown exception or rejected
  promise is `.error`, carrying the message).  `await` is sequencing.  The
  collaborators `showDicomStatus`, `console.error`, `setTotal` and `finishOne`
  return normally; those of the decode stage may throw.
* The server is a table of replies, one for each request the loader can make.
* A load session (`timeline`) interleaves the calls of the sequencer with the
  settlements of the units issued; pipelines settle only while the sequencer
  is suspended on a network request, or after it has finished.
* The dictionary `groupedBySeries` is a JavaScript object: own properties in
  creation order, lookups falling back to `Object.prototype`, and
  `Object.keys` listing array-index keys first in ascending order.
-/

namespace ShareDicomLoader

/-! ## Data model -/

/-- The first value of tag 00200013 as the decoded JSON body holds it: a number
or, as the DICOM JSON model also allows for an integer string, a string. -/
inductive JsValue where
  | number (n : Int)
  | string (s : String)
  deriving DecidableEq

instance (n : Nat) : OfNat JsValue n := ⟨.number (Int.ofNat n)⟩

/-- An attribute record as the loader reads it: the first value of each of the
four tags it consults, `none` when `rec[tag]?.Value?.[0]` is `undefined`. -/
structure AttributeRecord where
  /-- Tag 0020000D. -/
  studyInstanceUID : Option String
  /-- Tag 0020000E. -/
  seriesInstanceUID : Option String
  /-- Tag 00080018. -/
  sopInstanceUID : Option String
  /-- Tag 00200013. -/
  instanceNumber : Option JsValue
  deriving DecidableEq

/-- One entry of `shareInfo.targets`. -/
structure Target where
  targetId : String
  deriving DecidableEq

/-- The value of `shareInfo`: the `data` member of the share-resolution reply. -/
structure ShareInfo where
  targetType : String
  targets : List Target
  deriving DecidableEq

/-- The JSON body of the share-resolution reply, `{ok, error, data}`. -/
structure ShareBody where
  ok : Bool
  error : Option String
  data : Option ShareInfo
  deriving DecidableEq

/-- The requests the loader issues; token and password are fixed for a session
and are part of every URL. -/
inductive Endpoint where
  /-- Path `/api/share/{token}`. -/
  | share
  /-- Path `/api/share/{token}/studies/{studyUid}/series`. -/
  | studySeries (studyUid : String)
  /-- Path `/api/share/{token}/studies/{studyUid}/series/{seriesUid}/instances`. -/
  | seriesInstances (studyUid seriesUid : String)
  /-- Path `/api/share/{token}/series`. -/
  | seriesList
  /-- Path `/api/share/{token}/instances`. -/
  | instanceList
  /-- Path `.../studies/{studyUid}/series/{seriesUid}/instances/{sopUid}`; an
  `undefined` study is printed by the template literal as it stands. -/
  | unit (studyUid : Option String) (seriesUid sopUid : String)
  deriving DecidableEq

/-- A decoded instance handed to the viewer. -/
structure Sop where
  sopUid : String
  deriving DecidableEq

/-- The observable calls of the loader, in the order they are made. -/
inductive Event where
  /-- Call `showDicomStatus(msg, isError)`. -/
  | showDicomStatus (msg : String) (isError : Bool)
  /-- Call `console.error(msg, ...)`. -/
  | consoleError (msg : String)
  /-- Call `fetch(url)`. -/
  | fetch (url : Endpoint)
  /-- Call `window.SeriesProgressManager.setTotal(seriesUid, n)`. -/
  | setTotal (seriesUid : String) (n : Nat)
  /-- Call `this.loadInstanceWadoRs(studyUid, seriesUid, sopUid, onlyLoad)`. -/
  | loadInstanceWadoRs (studyUid : Option String) (seriesUid sopUid : String) (onlyLoad : Bool)
  /-- Statement `LoadFileInBatches.NumOfFetchs++`. -/
  | numOfFetchsIncrement
  /-- Call `LoadFileInBatches.finishOne(url)`. -/
  | finishOne (url : Endpoint)
  /-- Calls `setImageObjToLeft`, `resetViewport`, `GetViewport().loadImgBySop`. -/
  | renderNow (sop : Sop)
  /-- Call `leftLayout.refreshNumberOfFramesOrSops(Sop.Image)`. -/
  | registerOnly (sop : Sop)
  deriving DecidableEq

/-- An HTTP reply: the `ok` flag, status line, and the outcome of reading its
body (`response.json()` or `res.arrayBuffer()`), which may reject. -/
structure HttpResponse (α : Type) where
  ok : Bool
  status : Nat
  statusText : String
  body : Except String α

/-- What `fetch` settles to: a rejection (network failure) or a reply. -/
inductive FetchResult (α : Type) where
  | rejected (message : String)
  | resolved (res : HttpResponse α)

/-- The replies of the share API, one for each listing request. -/
structure Server where
  share : FetchResult ShareBody
  studySeries : String → FetchResult (List AttributeRecord)
  seriesInstances : String → String → FetchResult (List AttributeRecord)
  seriesList : FetchResult (List AttributeRecord)
  instanceList : FetchResult (List AttributeRecord)

/-- The query string of `window.location.search`, as `URLSearchParams.get`
reads it (`none` for `null`). -/
structure UrlParams where
  shareToken : Option String
  password : Option String
  seriesInstanceUID : Option String
  sopInstanceUID : Option String

/-- The mutable fields of `window.ShareDicomLoader`. -/
structure Loader where
  shareToken : Option String
  password : Option String
  shareInfo : Option ShareInfo
  specifiedSeriesUid : Option String
  specifiedSopUid : Option String
  deriving DecidableEq

/-- The object literal as written: every field `null`. -/
def Loader.initial : Loader :=
  { shareToken := none, password := none, shareInfo := none,
    specifiedSeriesUid := none, specifiedSopUid := none }

/-! ## Runs: calls made and completion -/

/-- A run of a piece of code: the calls it made and how it completed. -/
structure Outcome (α : Type) where
  trace : List Event
  result : Except String α

/-- Completion with a value and no call. -/
def Outcome.pure {α : Type} (a : α) : Outcome α := ⟨[], .ok a⟩

/-- Sequencing: the continuation runs only when the first part completed
normally; an exception propagates and keeps the calls made so far. -/
def Outcome.bind {α β : Type} (x : Outcome α) (f : α → Outcome β) : Outcome β :=
  match x.result with
  | .error e => ⟨x.trace, .error e⟩
  | .ok a => ⟨x.trace ++ (f a).trace, (f a).result⟩

instance : Monad Outcome where
  pure := Outcome.pure
  bind := Outcome.bind

/-- One observable call that returns normally. -/
def emit (e : Event) : Outcome Unit := ⟨[e], .ok ()⟩

/-- Statement `throw new Error(msg)`; an exception raised by the engine is
written with the message `TypeError`. -/
def raise {α : Type} (msg : String) : Outcome α := ⟨[], .error msg⟩

/-- Statement `try { body } catch (error) { handler(error.message) }`, and the
promise method `.catch`. -/
def tryCatch {α : Type} (body : Outcome α) (handler : String → Outcome α) : Outcome α :=
  match body.result with
  | .ok _ => body
  | .error e => ⟨body.trace ++ (handler e).trace, (handler e).result⟩

/-- The promise method `.finally(h)`: `h` runs however the promise settled, and
the settlement is kept unless `h` itself throws. -/
def andFinally {α : Type} (body : Outcome α) (h : Outcome Unit) : Outcome α :=
  ⟨body.trace ++ h.trace,
    match h.result with
    | .ok _ => body.result
    | .error e => .error e⟩

/-- Loop `for (const a of as) { body(a) }`; `continue` is the normal completion
of the body. -/
def forEach {α : Type} : List α → (α → Outcome Unit) → Outcome Unit
  | [], _ => pure ()
  | a :: as, body => do
    body a
    forEach as body

/-- Call `fetch(url)`: the request is issued, then the promise settles as the
server table says. -/
def fetch {α : Type} (url : Endpoint) (reply : FetchResult α) : Outcome (HttpResponse α) :=
  ⟨[.fetch url],
    match reply with
    | .rejected m => .error m
    | .resolved res => .ok res⟩

/-- Reading the body, `await response.json()`. -/
def HttpResponse.json {α : Type} (res : HttpResponse α) : Outcome α := ⟨[], res.body⟩

/-- JavaScript truthiness of a string-or-undefined value, keeping the string:
`none` when `!v` holds. -/
def truthy? : Option String → Option String
  | some s => if s = "" then none else some s
  | none => none

/-- JavaScript truthiness as a boolean. -/
def truthy (v : Option String) : Bool := (truthy? v).isSome

/-! ## JavaScript values and the operator `<` -/

/-- The characters `String.prototype.trim` removes: white space and line
terminators of ECMAScript. -/
def isWhiteSpace (c : Char) : Bool :=
  let n := c.toNat
  n = 0x9 || n = 0xA || n = 0xB || n = 0xC || n = 0xD || n = 0x20 || n = 0xA0
    || n = 0x1680 || (0x2000 ≤ n && n ≤ 0x200A) || n = 0x2028 || n = 0x2029
    || n = 0x202F || n = 0x205F || n = 0x3000 || n = 0xFEFF

/-- The method `trim()`. -/
def trim (cs : List Char) : List Char :=
  ((cs.dropWhile isWhiteSpace).reverse.dropWhile isWhiteSpace).reverse

/-- The UTF-16 code units of a character. -/
def utf16Units (c : Char) : List Nat :=
  if c.toNat < 0x10000 then [c.toNat]
  else [0xD800 + (c.toNat - 0x10000) / 0x400, 0xDC00 + (c.toNat - 0x10000) % 0x400]

/-- The UTF-16 code units of a string. -/
def codeUnits (s : String) : List Nat := s.data.flatMap utf16Units

/-- The order of `<` on two strings: lexicographic on code units, a proper
prefix being less. -/
def lexLess : List Nat → List Nat → Bool
  | _, [] => false
  | [], _ :: _ => true
  | a :: as, b :: bs => decide (a < b) || (decide (a = b) && lexLess as bs)

/-- The value of a string of decimal digits. -/
def digitsValue (cs : List Char) : Nat :=
  cs.foldl (fun acc d => 10 * acc + (d.toNat - 48)) 0

/-- A non-empty string of decimal digits. -/
def isDigits (cs : List Char) : Bool := !cs.isEmpty && cs.all Char.isDigit

/-- The conversion `ToNumber` on a string holding an integer numeral: white space
is trimmed, the empty string is 0, a sign may precede the digits; `none` is
`NaN`.  Numerals JavaScript reads as a number that is not written so (a
fraction, an exponent, a radix prefix, `Infinity`) are no integer strings and
are outside the model. -/
def stringToNumber (s : String) : Option Int :=
  match trim s.data with
  | [] => some 0
  | c :: cs =>
    if c = '+' then (if isDigits cs then some (Int.ofNat (digitsValue cs)) else none)
    else if c = '-' then (if isDigits cs then some (-Int.ofNat (digitsValue cs)) else none)
    else if isDigits (c :: cs) then some (Int.ofNat (digitsValue (c :: cs))) else none

/-- The conversion `ToNumber`; `none` is `NaN`. -/
def toNumber : JsValue → Option Int
  | .number n => some n
  | .string s => stringToNumber s

/-- The operator `a < b` of JavaScript: two strings are compared as strings,
code unit by code unit; otherwise both operands are converted to numbers and
the comparison is false when one of them is `NaN`. -/
def jsLess (a b : JsValue) : Bool :=
  match a, b with
  | .string x, .string y => lexLess (codeUnits x) (codeUnits y)
  | _, _ =>
    match toNumber a, toNumber b with
    | some x, some y => decide (x < y)
    | _, _ => false

/-! ## Head selection and the head-then-tail schedule -/

/-- The constant `Number.MAX_VALUE`, the largest finite double,
`2 ^ 1024 - 2 ^ 971`. -/
def Number.MAX_VALUE : Int :=
  179769313486231570814527423731704356798070567525844996598917476803157260780028538760589558632766878171540458953514382464234321326889464182768467546703537516986049910576551282076245490090389328944075868508455133942304583236903222948165808559332123348274797826204144723168738177180919299881250404026184124858368

/-- The selection loop of `loadSeriesWadoRs` (lines 240-246): `i` is the loop
index, `minInstanceNum` and `firstInstanceIndex` the two `let` variables.  The
test `instanceNum < minInstanceNum` is applied to the raw first value, and
`minInstanceNum` takes that raw value. -/
def selectLoop : List AttributeRecord → Nat → JsValue → Nat → Nat
  | [], _, _, firstInstanceIndex => firstInstanceIndex
  | r :: rest, i, minInstanceNum, firstInstanceIndex =>
    match r.instanceNumber with
    | some instanceNum =>
      if jsLess instanceNum minInstanceNum then selectLoop rest (i + 1) instanceNum i
      else selectLoop rest (i + 1) minInstanceNum firstInstanceIndex
    | none => selectLoop rest (i + 1) minInstanceNum firstInstanceIndex

/-- The value of `firstInstanceIndex` after the selection loop. -/
def firstInstanceIndex (instances : List AttributeRecord) : Nat :=
  selectLoop instances 0 (.number Number.MAX_VALUE) 0

/-- Method `loadInstanceWadoRs(studyUid, seriesUid, sopUid, onlyLoad)`: it builds
the unit URL and calls `shareWadorsLoader(url, onlyLoad)`; it returns nothing. -/
def loadInstanceWadoRs (studyUid : Option String) (seriesUid sopUid : String)
    (onlyLoad : Bool) : Outcome Unit :=
  emit (.loadInstanceWadoRs studyUid seriesUid sopUid onlyLoad)

/-- The second loop of `loadSeriesWadoRs` (lines 256-263), from index `i` on. -/
def tailLoop (studyUid : Option String) (seriesUid : String) (firstInstanceIndex : Nat) :
    List AttributeRecord → Nat → Outcome Unit
  | [], _ => pure ()
  | r :: rest, i =>
    if i = firstInstanceIndex then tailLoop studyUid seriesUid firstInstanceIndex rest (i + 1)
    else do
      match truthy? r.sopInstanceUID with
      | some sopUid => loadInstanceWadoRs studyUid seriesUid sopUid true
      | none => pure ()
      tailLoop studyUid seriesUid firstInstanceIndex rest (i + 1)

/-- Method `loadSeriesWadoRs(studyUid, seriesUid, instances)`. -/
def loadSeriesWadoRs (studyUid : Option String) (seriesUid : String)
    (instances : List AttributeRecord) : Outcome Unit :=
  if instances.length = 0 then pure () else do
    let first := firstInstanceIndex instances
    match instances[first]? with
    | none => raise "TypeError"
    | some firstInstance =>
      match truthy? firstInstance.sopInstanceUID with
      | some firstSopUid => loadInstanceWadoRs studyUid seriesUid firstSopUid false
      | none => pure ()
      tailLoop studyUid seriesUid first instances 0

/-- Method `loadFilteredInstances(studyUid, seriesUid, instances)`: the same
statements as `loadSeriesWadoRs` (lines 378-409). -/
def loadFilteredInstances (studyUid : Option String) (seriesUid : String)
    (instances : List AttributeRecord) : Outcome Unit :=
  if instances.length = 0 then pure () else do
    let first := firstInstanceIndex instances
    match instances[first]? with
    | none => raise "TypeError"
    | some firstInstance =>
      match truthy? firstInstance.sopInstanceUID with
      | some firstSopUid => loadInstanceWadoRs studyUid seriesUid firstSopUid false
      | none => pure ()
      tailLoop studyUid seriesUid first instances 0

/-! ## Listing requests -/

/-- Method `fetchStudySeries(studyUid)`. -/
def fetchStudySeries (srv : Server) (studyUid : String) : Outcome (List AttributeRecord) :=
  tryCatch
    (do
      let response ← fetch (.studySeries studyUid) (srv.studySeries studyUid)
      if !response.ok then pure [] else response.json)
    (fun _ => do
      emit (.consoleError "Failed to fetch study series:")
      pure [])

/-- Method `fetchSeriesInstances(studyUid, seriesUid)`. -/
def fetchSeriesInstances (srv : Server) (studyUid seriesUid : String) :
    Outcome (List AttributeRecord) :=
  tryCatch
    (do
      let response ← fetch (.seriesInstances studyUid seriesUid)
        (srv.seriesInstances studyUid seriesUid)
      if !response.ok then pure [] else response.json)
    (fun _ => do
      emit (.consoleError "Failed to fetch series instances:")
      pure [])

/-! ## Study and series granularity -/

/-- The statements that load one listed series, written three times in the
source (lines 101-108 of `loadStudies`, 131-137 of `loadSeries`, 294-299 of
`loadSpecifiedSeries`). -/
def loadListedSeries (srv : Server) (studyUid seriesUid : String) : Outcome Unit := do
  let instances ← fetchSeriesInstances srv studyUid seriesUid
  if instances.length > 0 then
    emit (.setTotal seriesUid instances.length)
  loadSeriesWadoRs (some studyUid) seriesUid instances

/-- Method `loadStudies(targets)`. -/
def loadStudies (srv : Server) (targets : List Target) : Outcome Unit :=
  forEach targets fun target => do
    let studyUid := target.targetId
    let seriesList ← fetchStudySeries srv studyUid
    if seriesList.length = 0 then pure () else
      forEach seriesList fun series =>
        match truthy? series.seriesInstanceUID with
        | none => pure ()
        | some seriesUid => loadListedSeries srv studyUid seriesUid

/-- Method `loadSeries(targets)`; the targets are not read. -/
def loadSeries (srv : Server) (_targets : List Target) : Outcome Unit :=
  tryCatch
    (do
      let response ← fetch .seriesList srv.seriesList
      if !response.ok then raise "Failed to fetch series list" else do
        let seriesList ← response.json
        forEach seriesList fun series =>
          match truthy? series.studyInstanceUID, truthy? series.seriesInstanceUID with
          | some studyUid, some seriesUid => loadListedSeries srv studyUid seriesUid
          | _, _ => pure ())
    (fun message => do
      emit (.consoleError "Failed to load series:")
      emit (.showDicomStatus ("Error loading series: " ++ message) true))

/-! ## Instance granularity -/

/-- One value of the dictionary `groupedBySeries`. -/
structure SeriesGroup where
  studyUid : Option String
  instances : List AttributeRecord
  deriving DecidableEq

/-- The object `groupedBySeries`: its own properties in creation order. -/
abbrev GroupedBySeries := List (String × SeriesGroup)

/-- The property names every object inherits from `Object.prototype`; a lookup
of one of them on `groupedBySeries` yields the inherited (truthy) member. -/
def objectPrototypeKeys : List String :=
  ["constructor", "__defineGetter__", "__defineSetter__", "hasOwnProperty",
   "__lookupGetter__", "__lookupSetter__", "isPrototypeOf", "propertyIsEnumerable",
   "toString", "valueOf", "__proto__", "toLocaleString"]

/-- The own property `groupedBySeries[seriesUid]`, if there is one. -/
def ownProperty (groupedBySeries : GroupedBySeries) (seriesUid : String) : Option SeriesGroup :=
  match groupedBySeries with
  | [] => none
  | (k, g) :: rest => if k = seriesUid then some g else ownProperty rest seriesUid

/-- Statement `groupedBySeries[seriesUid].instances.push(inst)` on an own property. -/
def pushInstance (groupedBySeries : GroupedBySeries) (seriesUid : String)
    (inst : AttributeRecord) : GroupedBySeries :=
  match groupedBySeries with
  | [] => []
  | (k, g) :: rest =>
    if k = seriesUid then (k, { g with instances := g.instances ++ [inst] }) :: rest
    else (k, g) :: pushInstance rest seriesUid inst

/-- The grouping loop of `loadInstances` (lines 160-171).  For a key inherited
from `Object.prototype` the test `!groupedBySeries[seriesUid]` is false, the
inherited member has no `instances`, and `.push` throws a `TypeError`. -/
def groupLoop : List AttributeRecord → GroupedBySeries → Outcome GroupedBySeries
  | [], groupedBySeries => pure groupedBySeries
  | inst :: rest, groupedBySeries =>
    match truthy? inst.seriesInstanceUID with
    | none => groupLoop rest groupedBySeries
    | some seriesUid =>
      if seriesUid ∈ objectPrototypeKeys then raise "TypeError"
      else
        match ownProperty groupedBySeries seriesUid with
        | none =>
          groupLoop rest
            (pushInstance
              (groupedBySeries ++ [(seriesUid, { studyUid := inst.studyInstanceUID, instances := [] })])
              seriesUid inst)
        | some _ => groupLoop rest (pushInstance groupedBySeries seriesUid inst)

/-- The numeric value of a key that is an array index: a canonical decimal
numeral (no leading zero) of value at most `2 ^ 32 - 2`. -/
def arrayIndex? (key : String) : Option Nat :=
  match key.data with
  | [] => none
  | c :: cs =>
    if (c :: cs).all Char.isDigit && (c != '0' || cs.isEmpty) then
      let n := (c :: cs).foldl (fun acc d => 10 * acc + (d.toNat - 48)) 0
      if n ≤ 4294967294 then some n else none
    else none

/-- The function `Object.keys`: array-index keys in ascending numeric order, then
the other keys in creation order. -/
def objectKeys (groupedBySeries : GroupedBySeries) : List String :=
  let keys := groupedBySeries.map Prod.fst
  (keys.filter fun k => (arrayIndex? k).isSome).insertionSort
      (fun a b => (arrayIndex? a).getD 0 ≤ (arrayIndex? b).getD 0)
    ++ keys.filter fun k => (arrayIndex? k).isNone

/-- The inner loop of `loadInstances` (lines 182-189), from index `i` on. -/
def instanceLoop (studyUid : Option String) (seriesUid : String) :
    List AttributeRecord → Nat → Outcome Unit
  | [], _ => pure ()
  | inst :: rest, i =>
    match truthy? inst.sopInstanceUID with
    | none => instanceLoop studyUid seriesUid rest (i + 1)
    | some sopUid => do
      let isFirst := decide (i = 0)
      loadInstanceWadoRs studyUid seriesUid sopUid (!isFirst)
      instanceLoop studyUid seriesUid rest (i + 1)

/-- Method `loadInstances(targets)`; the targets are not read. -/
def loadInstances (srv : Server) (_targets : List Target) : Outcome Unit :=
  tryCatch
    (do
      let response ← fetch .instanceList srv.instanceList
      if !response.ok then raise "Failed to fetch instances" else do
        let instances ← response.json
        let groupedBySeries ← groupLoop instances []
        forEach (objectKeys groupedBySeries) fun seriesUid =>
          match ownProperty groupedBySeries seriesUid with
          | none => raise "TypeError"
          | some group => emit (.setTotal seriesUid group.instances.length)
        forEach (objectKeys groupedBySeries) fun seriesUid =>
          match ownProperty groupedBySeries seriesUid with
          | none => raise "TypeError"
          | some group => instanceLoop group.studyUid seriesUid group.instances 0)
    (fun message => do
      emit (.consoleError "Failed to load instances:")
      emit (.showDicomStatus ("Error loading instances: " ++ message) true))

/-! ## Navigation filters -/

/-- The method `split(",")` on the characters of a string. -/
def splitComma : List Char → List (List Char)
  | [] => [[]]
  | c :: cs =>
    if c = ',' then [] :: splitComma cs
    else
      match splitComma cs with
      | [] => [[c]]
      | w :: ws => (c :: w) :: ws

/-- Expression `spec.split(",").map(uid => uid.trim())`. -/
def splitUids (spec : String) : List String :=
  (splitComma spec.data).map fun w => String.mk (trim w)

/-- The filter callback of `loadSpecifiedInstances` (lines 327-330):
`sopUid && specifiedSopUids.includes(sopUid)`. -/
def matchesSop (specifiedSopUids : List String) (inst : AttributeRecord) : Bool :=
  match truthy? inst.sopInstanceUID with
  | none => false
  | some sopUid => specifiedSopUids.contains sopUid

/-- The statements of `loadSpecifiedInstances` for one series (lines 322-335 and,
identically, 353-366). -/
def loadSpecifiedInstancesOfSeries (srv : Server) (specifiedSopUids : List String)
    (studyUid seriesUid : String) : Outcome Unit := do
  let instances ← fetchSeriesInstances srv studyUid seriesUid
  if instances.length = 0 then pure () else
    let matchedInstances := instances.filter (matchesSop specifiedSopUids)
    if matchedInstances.length > 0 then do
      emit (.setTotal seriesUid matchedInstances.length)
      loadFilteredInstances (some studyUid) seriesUid matchedInstances
    else pure ()

/-- Method `loadSpecifiedInstances(targets, targetType)`; `split` on a `null`
filter throws a `TypeError`. -/
def loadSpecifiedInstances (srv : Server) (self : Loader) (targets : List Target)
    (targetType : String) : Outcome Unit :=
  match self.specifiedSopUid with
  | none => raise "TypeError"
  | some specifiedSopUid =>
    let specifiedSopUids := splitUids specifiedSopUid
    if targetType = "study" then
      forEach targets fun target => do
        let studyUid := target.targetId
        let seriesList ← fetchStudySeries srv studyUid
        if seriesList.length = 0 then pure () else
          forEach seriesList fun series =>
            match truthy? series.seriesInstanceUID with
            | none => pure ()
            | some seriesUid =>
              loadSpecifiedInstancesOfSeries srv specifiedSopUids studyUid seriesUid
    else if targetType = "series" then
      tryCatch
        (do
          let response ← fetch .seriesList srv.seriesList
          if !response.ok then raise "Failed to fetch series list" else do
            let seriesList ← response.json
            forEach seriesList fun series =>
              match truthy? series.studyInstanceUID, truthy? series.seriesInstanceUID with
              | some studyUid, some seriesUid =>
                loadSpecifiedInstancesOfSeries srv specifiedSopUids studyUid seriesUid
              | _, _ => pure ())
        (fun message => do
          emit (.consoleError "Failed to load specified instances:")
          emit (.showDicomStatus ("Error loading instances: " ++ message) true))
    else pure ()

/-- Method `loadSpecifiedSeries(targets)`; `split` on a `null` filter throws a
`TypeError`. -/
def loadSpecifiedSeries (srv : Server) (self : Loader) (targets : List Target) : Outcome Unit :=
  match self.specifiedSeriesUid with
  | none => raise "TypeError"
  | some specifiedSeriesUid =>
    let specifiedSeriesUids := splitUids specifiedSeriesUid
    forEach targets fun target => do
      let studyUid := target.targetId
      let seriesList ← fetchStudySeries srv studyUid
      if seriesList.length = 0 then pure () else
        forEach seriesList fun series =>
          match truthy? series.seriesInstanceUID with
          | none => pure ()
          | some seriesUid =>
            if !specifiedSeriesUids.contains seriesUid then pure ()
            else loadListedSeries srv studyUid seriesUid

/-! ## Dispatch on the share type, and session start -/

/-- Method `loadByTargetType()`. -/
def loadByTargetType (srv : Server) (self : Loader) : Outcome Unit :=
  match self.shareInfo with
  | none => pure ()
  | some shareInfo => do
    let targetType := shareInfo.targetType
    let targets := shareInfo.targets
    emit (.showDicomStatus "Loading shared images..." false)
    if truthy self.specifiedSopUid ∧ (targetType = "study" ∨ targetType = "series") then
      loadSpecifiedInstances srv self targets targetType
    else if truthy self.specifiedSeriesUid ∧ targetType = "instance" then
      loadSpecifiedSeries srv self targets
    else if targetType = "study" then loadStudies srv targets
    else if targetType = "series" then loadSeries srv targets
    else if targetType = "instance" then loadInstances srv targets
    else do
      emit (.consoleError "Unknown target type:")
      emit (.showDicomStatus "Error: Unknown share type" true)

/-- Method `getShareParams()`: the fields read from the query string, and the
returned token. -/
def getShareParams (params : UrlParams) (self : Loader) : Loader × Option String :=
  let self1 : Loader :=
    { self with
      shareToken := params.shareToken
      password := some ((truthy? params.password).getD "")
      specifiedSeriesUid := truthy? params.seriesInstanceUID
      specifiedSopUid := truthy? params.sopInstanceUID }
  (self1, self1.shareToken)

/-- Method `fetchShareInfo()`: the loader fields afterwards and the returned
value (`none` for `null` or `undefined`). -/
def fetchShareInfo (srv : Server) (self : Loader) : Outcome (Loader × Option ShareInfo) :=
  if !truthy self.shareToken then pure (self, none) else
    tryCatch
      (do
        let response ← fetch .share srv.share
        if !response.ok then do
          let error ← response.json
          raise ((truthy? error.error).getD "Failed to fetch share link")
        else do
          let result ← response.json
          if !result.ok then raise ((truthy? result.error).getD "Share link not accessible")
          else
            let self1 : Loader := { self with shareInfo := result.data }
            pure (self1, self1.shareInfo))
      (fun message => do
        emit (.consoleError "Failed to fetch share info:")
        emit (.showDicomStatus ("Error: " ++ message) true)
        pure (self, none))

/-- Method `init()`: the loader fields afterwards and the returned boolean. -/
def init (params : UrlParams) (srv : Server) (self : Loader) : Outcome (Loader × Bool) :=
  let (self1, shareToken) := getShareParams params self
  if !truthy shareToken then pure (self1, false) else do
    let (self2, shareInfo) ← fetchShareInfo srv self1
    match shareInfo with
    | none => pure (self2, false)
    | some _ => do
      loadByTargetType srv self2
      pure (self2, true)

/-! ## Fetching and decoding one unit -/

/-- The bytes of a body or of one part of it. -/
abbrev Bytes := List Nat

/-- The collaborators of the decode stage, each of which may throw. -/
structure Viewer where
  /-- Function `multipartDecode`. -/
  multipartDecode : Bytes → Except String (List Bytes)
  /-- Functions `loadDicomDataSet`, `setPixelDataToImageObj` and the blob URL. -/
  loadDicomDataSet : Bytes → Except String Sop
  /-- Functions `setImageObjToLeft`, `resetViewport`, `loadImgBySop`. -/
  render : Sop → Except String Unit
  /-- Function `leftLayout.refreshNumberOfFramesOrSops`. -/
  register : Sop → Except String Unit

/-- The first `.then` handler of `shareWadorsLoader` (lines 427-434). -/
def checkStatus (res : HttpResponse Bytes) : Outcome Bytes :=
  if !res.ok then do
    emit (.consoleError "HTTP error:")
    emit (.showDicomStatus ("Error: " ++ toString res.status ++ " " ++ res.statusText) true)
    raise ("HTTP error " ++ toString res.status ++ ": " ++ res.statusText)
  else ⟨[], res.body⟩

/-- The second `.then` handler of `shareWadorsLoader` (lines 435-453). -/
def decodeAndDispatch (viewer : Viewer) (onlyload : Bool) (resBlob : Bytes) : Outcome Unit := do
  let decodedBuffers ← (⟨[], viewer.multipartDecode resBlob⟩ : Outcome (List Bytes))
  forEach decodedBuffers fun decodedBuf => do
    let sop ← (⟨[], viewer.loadDicomDataSet decodedBuf⟩ : Outcome Sop)
    if !(onlyload = true) then
      (⟨[.renderNow sop], viewer.render sop⟩ : Outcome Unit)
    else
      (⟨[.registerOnly sop], viewer.register sop⟩ : Outcome Unit)

/-- Method `shareWadorsLoader(url, onlyload)`: the calls made when the unit is
issued and by the handlers of its promise chain, up to settlement. -/
def shareWadorsLoader (viewer : Viewer) (reply : FetchResult Bytes) (url : Endpoint)
    (onlyload : Bool) : Outcome Unit := do
  emit (.showDicomStatus "Loading images..." false)
  emit .numOfFetchsIncrement
  andFinally
    (tryCatch
      (do
        let res ← fetch url reply
        let resBlob ← checkStatus res
        decodeAndDispatch viewer onlyload resBlob)
      (fun message => do
        emit (.consoleError "Fetch error:")
        emit (.showDicomStatus ("Error: " ++ message) true)))
    (emit (.finishOne url))

/-! ## Observations on a trace -/

/-- The totals passed to `setTotal` for a series, in call order. -/
def totalsOf (seriesUid : String) : List Event → List Nat
  | [] => []
  | .setTotal s n :: rest =>
    if s = seriesUid then n :: totalsOf seriesUid rest else totalsOf seriesUid rest
  | _ :: rest => totalsOf seriesUid rest

/-- The unit fetches (calls of `loadInstanceWadoRs`) issued for a series. -/
def unitFetchesOf (seriesUid : String) : List Event → List Event
  | [] => []
  | .loadInstanceWadoRs st s sop o :: rest =>
    if s = seriesUid then .loadInstanceWadoRs st s sop o :: unitFetchesOf seriesUid rest
    else unitFetchesOf seriesUid rest
  | _ :: rest => unitFetchesOf seriesUid rest

/-- The unit fetches issued in render mode (`onlyLoad = false`). -/
def renderFetches : List Event → List Event
  | [] => []
  | .loadInstanceWadoRs st s sop false :: rest =>
    .loadInstanceWadoRs st s sop false :: renderFetches rest
  | _ :: rest => renderFetches rest

/-- Whether an event is a call of `setTotal`. -/
def Event.isSetTotal : Event → Bool
  | .setTotal _ _ => true
  | _ => false

/-- Whether an event is a unit fetch. -/
def Event.isUnitFetch : Event → Bool
  | .loadInstanceWadoRs _ _ _ _ => true
  | _ => false

/-- Whether an event is a network request. -/
def Event.isRequest : Event → Bool
  | .fetch _ => true
  | _ => false

/-- Order on InstanceNumber values with an absent value counted as positive
infinity: `numLE a b` is `a ≤ b`. -/
def numLE : Option Int → Option Int → Prop
  | _, none => True
  | none, some _ => False
  | some x, some y => x ≤ y

/-- The InstanceNumber a record denotes: the number held by tag 00200013, or the
integer a string value spells; `none` when the value is absent. -/
def denotedNumber (r : AttributeRecord) : Option Int := r.instanceNumber.bind toNumber

/-- A record carries a SOPInstanceUID: the tag holds a non-empty string (the
loader tests the value for truthiness). -/
def HasSop (r : AttributeRecord) : Prop :=
  match r.sopInstanceUID with
  | some u => u ≠ ""
  | none => False

instance HasSop.decidable (r : AttributeRecord) : Decidable (HasSop r) := by
  unfold HasSop
  split <;> infer_instance

/-- The unit fetches the loops issue for one record: one call of
`loadInstanceWadoRs` when its SOPInstanceUID is truthy, none otherwise. -/
def unitCalls (studyUid : Option String) (seriesUid : String) (onlyLoad : Bool)
    (r : AttributeRecord) : List Event :=
  match truthy? r.sopInstanceUID with
  | some sopUid => [.loadInstanceWadoRs studyUid seriesUid sopUid onlyLoad]
  | none => []

/-- The unit fetch of a record that carries a SOPInstanceUID. -/
def unitCall (studyUid : Option String) (seriesUid : String) (onlyLoad : Bool)
    (r : AttributeRecord) : Event :=
  .loadInstanceWadoRs studyUid seriesUid (r.sopInstanceUID.getD "") onlyLoad

/-- The list a listing request yields (`fetchStudySeries`,
`fetchSeriesInstances`): the decoded body of an OK reply, and the empty list
for a rejected request, a non-OK reply or an undecodable body. -/
def listingOf (reply : FetchResult (List AttributeRecord)) : List AttributeRecord :=
  match reply with
  | .rejected _ => []
  | .resolved res => if res.ok then (match res.body with | .ok l => l | .error _ => []) else []

/-- The listing request failed: the request was rejected, the reply was not OK,
or its body could not be decoded. -/
def ListingFailed (reply : FetchResult (List AttributeRecord)) : Prop :=
  match reply with
  | .rejected _ => True
  | .resolved res => res.ok = false ∨ ∃ e, res.body = .error e

/-- The listing request threw inside `try`: the request was rejected or the
body of an OK reply could not be decoded. -/
def listingThrew (reply : FetchResult (List AttributeRecord)) : Bool :=
  match reply with
  | .rejected _ => true
  | .resolved res => res.ok && (match res.body with | .ok _ => false | .error _ => true)

/-- What the `try` block of a flat listing (`loadSeries`, `loadInstances`,
`loadSpecifiedInstances`) obtains: the decoded list, or the message of the
exception thrown (the rejection, `failMsg` for a non-OK reply, or the decoding
error). -/
def flatListing (reply : FetchResult (List AttributeRecord)) (failMsg : String) :
    Except String (List AttributeRecord) :=
  match reply with
  | .rejected m => .error m
  | .resolved res => if res.ok then res.body else .error failMsg

/-- A record's SOPInstanceUID is one of the listed identifiers. -/
def SopListed (uids : List String) (r : AttributeRecord) : Prop :=
  HasSop r ∧ ∃ u ∈ uids, r.sopInstanceUID = some u

instance SopListed.decidable (uids : List String) (r : AttributeRecord) :
    Decidable (SopListed uids r) := by
  unfold SopListed
  infer_instance

/-- The share-resolution reply is a refusal: a non-OK reply, or an OK reply
whose body has `ok = false`. -/
def ShareRefused (reply : FetchResult ShareBody) : Prop :=
  match reply with
  | .rejected _ => False
  | .resolved res => res.ok = false ∨ ∃ body, res.body = .ok body ∧ body.ok = false

/-- An event of the completion bookkeeping of `LoadFileInBatches`. -/
def Event.isBookkeeping : Event → Bool
  | .numOfFetchsIncrement => true
  | .finishOne _ => true
  | _ => false

/-- The key under which `loadInstances` groups a record: its truthy
SeriesInstanceUID. -/
def seriesKey (r : AttributeRecord) : Option String := truthy? r.seriesInstanceUID

/-- The records of a listing grouped under key `k`, in listing order. -/
def groupOf (listing : List AttributeRecord) (k : String) : List AttributeRecord :=
  listing.filter fun r => decide (seriesKey r = some k)

/-- The unit fetches of the group of key `k`: every unit that carries a
SOPInstanceUID, with series `k` and the StudyInstanceUID of the first record of
the group; only a unit at position 0 of the group is in render mode. -/
def groupFetches (listing : List AttributeRecord) (k : String) : List Event :=
  match groupOf listing k with
  | [] => []
  | first :: rest =>
    unitCalls first.studyInstanceUID k false first
      ++ rest.flatMap (unitCalls first.studyInstanceUID k true)

/-- Invariant of the grouping loop after the records `done`: keys are distinct,
each group holds the records of its key in order, is non-empty and carries the
StudyInstanceUID of its first record, and every key met has a group. -/
def GroupsOf (done : List AttributeRecord) (g : GroupedBySeries) : Prop :=
  (g.map Prod.fst).Nodup ∧
  (∀ k grp, (k, grp) ∈ g →
    grp.instances = groupOf done k ∧ grp.instances ≠ [] ∧
    grp.studyUid = (groupOf done k).head?.bind (·.studyInstanceUID)) ∧
  (∀ r ∈ done, ∀ k, seriesKey r = some k → k ∈ g.map Prod.fst)

/-- The totals set for a series add up to the number of unit fetches issued for
it. -/
def Balanced (seriesUid : String) (t : List Event) : Prop :=
  (totalsOf seriesUid t).sum = (unitFetchesOf seriesUid t).length

/-- The promise chain of `shareWadorsLoader` before `.catch` (lines 426-453):
the request, the status check and the decode stage. -/
def unitPipeline (viewer : Viewer) (reply : FetchResult Bytes) (url : Endpoint)
    (onlyload : Bool) : Outcome Unit := do
  let res ← fetch url reply
  let resBlob ← checkStatus res
  decodeAndDispatch viewer onlyload resBlob

/-- The state of the status banner after a sequence of calls: the arguments of
the last `showDicomStatus`, or the state before when there is none. -/
def bannerAfter (before : Option (String × Bool)) : List Event → Option (String × Bool)
  | [] => before
  | .showDicomStatus msg isError :: rest => bannerAfter (some (msg, isError)) rest
  | _ :: rest => bannerAfter before rest

/-- A call of `showDicomStatus` with the error flag. -/
def Event.isErrorBanner : Event → Bool
  | .showDicomStatus _ true => true
  | _ => false

/-! ## Suspension of the sequencer -/

/-- What a call hands back to an `await`: no value, or a promise that settles
when the pipeline of a unit has finished. -/
inductive Awaitable where
  | undefined
  | promise (unit : Endpoint)
  deriving DecidableEq

/-- The value of `shareWadorsLoader(url, onlyload)`: the promise chain built on
`fetch(url)` is an expression statement, the function has no `return`. -/
def shareWadorsLoaderReturn (_url : Endpoint) (_onlyload : Bool) : Awaitable := .undefined

/-- The value of `loadInstanceWadoRs(studyUid, seriesUid, sopUid, onlyLoad)`: the
body ends with the call `this.shareWadorsLoader(url, onlyLoad);`, whose value
is dropped. -/
def loadInstanceWadoRsReturn (_studyUid : Option String) (_seriesUid _sopUid : String)
    (_onlyLoad : Bool) : Awaitable := .undefined

/-- Expression `await v`: the settlement the caller stays suspended on; for a
value that is no promise the caller resumes within the same turn. -/
def awaits : Awaitable → Option Endpoint
  | .undefined => none
  | .promise unit => some unit

/-- One step of a load session: a call made by the sequencer, or the settlement
of the pipeline of a unit. -/
inductive Step where
  | call (e : Event)
  | settled (unit : Endpoint)
  deriving DecidableEq

/-- A load session: the calls of the sequencer interleaved with the settlements
of the units issued.  A unit is pending from its call of `loadInstanceWadoRs`
on.  Pipelines settle only while the sequencer is suspended on the network:
during a listing or share request (`await fetch(url)`), where the schedule
says which pending units settle, and after the sequencer has finished, when
the remaining ones do.  After a call of `loadInstanceWadoRs` the sequencer is
suspended on what the call returned. -/
def timeline : List Event → List Endpoint → List (List Endpoint) → List Step
  | [], pending, _ => pending.map .settled
  | .loadInstanceWadoRs studyUid seriesUid sopUid onlyLoad :: rest, pending, schedule =>
    match awaits (loadInstanceWadoRsReturn studyUid seriesUid sopUid onlyLoad) with
    | none =>
      .call (.loadInstanceWadoRs studyUid seriesUid sopUid onlyLoad) ::
        timeline rest (pending ++ [.unit studyUid seriesUid sopUid]) schedule
    | some unit =>
      .call (.loadInstanceWadoRs studyUid seriesUid sopUid onlyLoad) :: .settled unit ::
        timeline rest pending schedule
  | .fetch url :: rest, pending, schedule =>
    .call (.fetch url) ::
      (((schedule.headD []).filter fun u => decide (u ∈ pending)).map .settled
        ++ timeline rest (pending.filter fun u => decide (u ∉ schedule.headD []))
            schedule.tail)
  | e :: rest, pending, schedule => .call e :: timeline rest pending schedule

/-- The head fetches are awaited in a session: no unit fetch is issued while a
head unit (issued with `onlyLoad = false`) has not settled; `heads` are the
head units issued and not yet settled. -/
def headsAwaited : List Step → List Endpoint → Bool
  | [], _ => true
  | .call (.loadInstanceWadoRs studyUid seriesUid sopUid onlyLoad) :: rest, heads =>
    heads.isEmpty &&
      headsAwaited rest (if onlyLoad then heads else [.unit studyUid seriesUid sopUid])
  | .call _ :: rest, heads => headsAwaited rest heads
  | .settled unit :: rest, heads => headsAwaited rest (heads.filter fun u => decide (u ≠ unit))

/-! ## Example data -/

/-- A record of series `X` of study `S`. -/
def exampleRecord (seriesUid sopUid : String) (instanceNumber : Option Int) : AttributeRecord :=
  { studyInstanceUID := some "S", seriesInstanceUID := some seriesUid,
    sopInstanceUID := some sopUid, instanceNumber := instanceNumber.map .number }

/-- A series of three instances; the least InstanceNumber occurs at positions 1
and 2. -/
def exampleSeries : List AttributeRecord :=
  [exampleRecord "X" "A" (some 3), exampleRecord "X" "B" (some 1), exampleRecord "X" "C" (some 1)]

/-- A series of two instances whose InstanceNumbers are the strings `10` (for
`A`) and `9` (for `B`). -/
def stringNumberedSeries : List AttributeRecord :=
  [{ studyInstanceUID := some "S", seriesInstanceUID := some "X",
     sopInstanceUID := some "A", instanceNumber := some (.string "10") },
   { studyInstanceUID := some "S", seriesInstanceUID := some "X",
     sopInstanceUID := some "B", instanceNumber := some (.string "9") }]

/-- A series of two instances: `C` without InstanceNumber, then `D` whose
InstanceNumber is the number `Number.MAX_VALUE`. -/
def sentinelSeries : List AttributeRecord :=
  [{ studyInstanceUID := some "S", seriesInstanceUID := some "X",
     sopInstanceUID := some "C", instanceNumber := none },
   { studyInstanceUID := some "S", seriesInstanceUID := some "X",
     sopInstanceUID := some "D", instanceNumber := some (.number Number.MAX_VALUE) }]

/-- A reply with status 200 and a readable body. -/
def okReply {α : Type} (a : α) : FetchResult α :=
  .resolved { ok := true, status := 200, statusText := "OK", body := .ok a }

/-- A series-level record of study `S`. -/
def exampleSeriesRecord (seriesUid : String) : AttributeRecord :=
  { studyInstanceUID := some "S", seriesInstanceUID := some seriesUid,
    sopInstanceUID := none, instanceNumber := none }

/-- A share of study `S` with the series `X`, `Y`, `Z`: the instance listing of
`X` is `exampleSeries`, that of `Y` fails with status 500, that of `Z` has one
instance.  The flat listings are those of the same instances. -/
def threeSeriesServer : Server :=
  { share := okReply
      { ok := true, error := none,
        data := some { targetType := "study", targets := [{ targetId := "S" }] } }
    studySeries := fun st =>
      if st = "S" then
        okReply [exampleSeriesRecord "X", exampleSeriesRecord "Y", exampleSeriesRecord "Z"]
      else okReply []
    seriesInstances := fun _ se =>
      if se = "X" then okReply exampleSeries
      else if se = "Z" then okReply [exampleRecord "Z" "D" (some 1)]
      else .resolved
        { ok := false, status := 500, statusText := "Internal Server Error", body := .ok [] }
    seriesList :=
      okReply [exampleSeriesRecord "X", exampleSeriesRecord "Y", exampleSeriesRecord "Z"]
    instanceList := okReply (exampleSeries ++ [exampleRecord "Z" "D" (some 1)]) }

/-- The loader of a study share of `S` opened with `?SeriesInstanceUID=X`. -/
def studyShareWithSeriesFilter : Loader :=
  { shareToken := some "token", password := some "",
    shareInfo := some { targetType := "study", targets := [{ targetId := "S" }] },
    specifiedSeriesUid := some "X", specifiedSopUid := none }

/-- A share-resolution reply refusing the token with status 403. -/
def refusingServer : Server :=
  { threeSeriesServer with
    share := .resolved
      { ok := false, status := 403, statusText := "Forbidden",
        body := .ok { ok := false, error := some "Invalid password", data := none } } }

/-- A flat listing in which two instances of series `X` name different
studies. -/
def mixedStudyServer : Server :=
  { threeSeriesServer with
    instanceList := okReply
      [{ studyInstanceUID := some "S1", seriesInstanceUID := some "X",
         sopInstanceUID := some "A", instanceNumber := some 1 },
       { studyInstanceUID := some "S2", seriesInstanceUID := some "X",
         sopInstanceUID := some "B", instanceNumber := some 2 }] }

/-- A flat listing whose only instance has the SeriesInstanceUID `constructor`,
the name of a member every object inherits. -/
def prototypeKeyServer : Server :=
  { threeSeriesServer with
    instanceList := okReply [exampleRecord "constructor" "A" (some 1)] }

/-- A study whose only series `X` lists a record without SOPInstanceUID before
the instance `A`. -/
def missingSopServer : Server :=
  { threeSeriesServer with
    studySeries := fun _ => okReply [exampleSeriesRecord "X"]
    seriesInstances := fun _ _ => okReply
      [{ studyInstanceUID := some "S", seriesInstanceUID := some "X",
         sopInstanceUID := none, instanceNumber := some 1 },
       exampleRecord "X" "A" (some 2)] }

/-- The loader of an instance share of the instance `A` opened with
`?SeriesInstanceUID=X`. -/
def instanceShareWithSeriesFilter : Loader :=
  { shareToken := some "token", password := some "",
    shareInfo := some { targetType := "instance", targets := [{ targetId := "A" }] },
    specifiedSeriesUid := some "X", specifiedSopUid := none }

/-- A viewer whose decode stage never throws; every part decodes to `A`. -/
def exampleViewer : Viewer :=
  { multipartDecode := fun b => .ok [b]
    loadDicomDataSet := fun _ => .ok { sopUid := "A" }
    render := fun _ => .ok ()
    register := fun _ => .ok () }

/-! ## Basic facts about runs -/

theorem bind_eq {α β : Type} (x : Outcome α) (f : α → Outcome β) :
    x >>= f = Outcome.bind x f := rfl

theorem pure_eq {α : Type} (a : α) : (pure a : Outcome α) = ⟨[], .ok a⟩ := rfl

theorem bind_mk_ok {α β : Type} (t : List Event) (a : α) (f : α → Outcome β) :
    Outcome.bind ⟨t, .ok a⟩ f = ⟨t ++ (f a).trace, (f a).result⟩ := rfl

theorem bind_mk_error {α β : Type} (t : List Event) (e : String) (f : α → Outcome β) :
    Outcome.bind (⟨t, .error e⟩ : Outcome α) f = ⟨t, .error e⟩ := rfl

theorem loadInstanceWadoRs_eq (st : Option String) (se sop : String) (o : Bool) :
    loadInstanceWadoRs st se sop o = ⟨[.loadInstanceWadoRs st se sop o], .ok ()⟩ := rfl

theorem denotedNumber_of_number (r : AttributeRecord) (n : Int)
    (h : r.instanceNumber = some (.number n)) : denotedNumber r = some n := by
  simp [denotedNumber, h, toNumber]

theorem denotedNumber_of_none (r : AttributeRecord) (h : r.instanceNumber = none) :
    denotedNumber r = none := by
  simp [denotedNumber, h]

theorem jsLess_number (x y : Int) : jsLess (.number x) (.number y) = decide (x < y) := rfl

/-- The selection loop returns the index it was given or a position of the part
of the list still to scan, whatever the values compared. -/
theorem selectLoop_valid (L : List AttributeRecord) :
    ∀ i m f, selectLoop L i m f = f ∨ ∃ j, j < L.length ∧ selectLoop L i m f = i + j := by
  induction L with
  | nil => intro i m f; left; rfl
  | cons r rest ih =>
    intro i m f
    cases hnum : r.instanceNumber with
    | none =>
      rcases ih (i + 1) m f with h | ⟨j, hj, h⟩
      · left; simp [selectLoop, hnum, h]
      · right
        exact ⟨j + 1, by simp; omega, by simp [selectLoop, hnum, h]; omega⟩
    | some v =>
      by_cases hv : jsLess v m = true
      · rcases ih (i + 1) v i with h | ⟨j, hj, h⟩
        · right
          exact ⟨0, by simp, by simp [selectLoop, hnum, hv, h]⟩
        · right
          exact ⟨j + 1, by simp; omega, by simp [selectLoop, hnum, hv, h]; omega⟩
      · rcases ih (i + 1) m f with h | ⟨j, hj, h⟩
        · left; simp [selectLoop, hnum, hv, h]
        · right
          exact ⟨j + 1, by simp; omega, by simp [selectLoop, hnum, hv, h]; omega⟩

/-- The selection loop on numbers, described relative to the part of the list
still to scan. -/
theorem selectLoop_spec (L : List AttributeRecord)
    (hnumber : ∀ r ∈ L, ∀ v, r.instanceNumber = some v → ∃ n, v = .number n) :
    ∀ i m f,
      (selectLoop L i (.number m) f = f ∧
        ∀ r ∈ L, ∀ n, r.instanceNumber = some (.number n) → m ≤ n) ∨
      (∃ j head n, selectLoop L i (.number m) f = i + j ∧ L[j]? = some head ∧
        head.instanceNumber = some (.number n) ∧ n < m ∧
        (∀ r ∈ L, numLE (some n) (denotedNumber r)) ∧
        (∀ j2 r, j2 < j → L[j2]? = some r → ¬ numLE (denotedNumber r) (some n))) := by
  induction L with
  | nil => intro i m f; left; simp [selectLoop]
  | cons r rest ih =>
    intro i m f
    have ih := ih fun r2 h2 => hnumber r2 (List.mem_cons_of_mem _ h2)
    cases hnum : r.instanceNumber with
    | none =>
      have hden := denotedNumber_of_none r hnum
      rcases ih (i + 1) m f with ⟨hk, hall⟩ | ⟨j, head, n, hk, hj, hn, hlt, hmin, hfirst⟩
      · left
        refine ⟨by simp [selectLoop, hnum, hk], ?_⟩
        intro r2 hr2 n2 hn2
        rcases List.mem_cons.mp hr2 with h | h
        · subst h; rw [hnum] at hn2; cases hn2
        · exact hall r2 h n2 hn2
      · right
        refine ⟨j + 1, head, n, by simp [selectLoop, hnum, hk]; omega, by simpa using hj, hn,
          hlt, ?_, ?_⟩
        · intro r2 hr2
          rcases List.mem_cons.mp hr2 with h | h
          · subst h; rw [hden]; trivial
          · exact hmin r2 h
        · intro j2 r2 hj2 hr2
          cases j2 with
          | zero =>
            simp at hr2; subst hr2; rw [hden]; exact fun h => h
          | succ j3 =>
            exact hfirst j3 r2 (by omega) (by simpa using hr2)
    | some v =>
      obtain ⟨x, hvx⟩ := hnumber r (List.mem_cons_self _ _) v hnum
      subst hvx
      have hden := denotedNumber_of_number r x hnum
      by_cases hx : x < m
      · rcases ih (i + 1) x i with ⟨hk, hall⟩ | ⟨j, head, n, hk, hj, hn, hlt, hmin, hfirst⟩
        · right
          refine ⟨0, r, x, by simp [selectLoop, hnum, jsLess_number, hx, hk], by simp, hnum, hx,
            ?_, ?_⟩
          · intro r2 hr2
            rcases List.mem_cons.mp hr2 with h | h
            · subst h; rw [hden]; exact le_refl x
            · cases hn2 : r2.instanceNumber with
              | none => rw [denotedNumber_of_none r2 hn2]; trivial
              | some v2 =>
                obtain ⟨n2, hv2⟩ := hnumber r2 hr2 v2 hn2
                subst hv2
                rw [denotedNumber_of_number r2 n2 hn2]
                exact hall r2 h n2 hn2
          · intro j2 r2 hj2; omega
        · right
          refine ⟨j + 1, head, n, by simp [selectLoop, hnum, jsLess_number, hx, hk]; omega,
            by simpa using hj, hn, lt_trans hlt hx, ?_, ?_⟩
          · intro r2 hr2
            rcases List.mem_cons.mp hr2 with h | h
            · subst h; rw [hden]; exact le_of_lt hlt
            · exact hmin r2 h
          · intro j2 r2 hj2 hr2
            cases j2 with
            | zero =>
              simp at hr2; subst hr2; rw [hden]
              exact fun h => absurd (show x ≤ n from h) (not_le.mpr hlt)
            | succ j3 =>
              exact hfirst j3 r2 (by omega) (by simpa using hr2)
      · rcases ih (i + 1) m f with ⟨hk, hall⟩ | ⟨j, head, n, hk, hj, hn, hlt, hmin, hfirst⟩
        · left
          refine ⟨by simp [selectLoop, hnum, jsLess_number, hx, hk], ?_⟩
          intro r2 hr2 n2 hn2
          rcases List.mem_cons.mp hr2 with h | h
          · subst h; rw [hnum] at hn2; cases hn2; exact not_lt.mp hx
          · exact hall r2 h n2 hn2
        · right
          have hnx : n < x := lt_of_lt_of_le hlt (not_lt.mp hx)
          refine ⟨j + 1, head, n, by simp [selectLoop, hnum, jsLess_number, hx, hk]; omega,
            by simpa using hj, hn, hlt, ?_, ?_⟩
          · intro r2 hr2
            rcases List.mem_cons.mp hr2 with h | h
            · subst h; rw [hden]; exact le_of_lt hnx
            · exact hmin r2 h
          · intro j2 r2 hj2 hr2
            cases j2 with
            | zero =>
              simp at hr2; subst hr2; rw [hden]
              exact fun h => absurd (show x ≤ n from h) (not_le.mpr hnx)
            | succ j3 =>
              exact hfirst j3 r2 (by omega) (by simpa using hr2)

theorem unitCalls_of_hasSop (st : Option String) (se : String) (o : Bool) (r : AttributeRecord)
    (h : HasSop r) : unitCalls st se o r = [unitCall st se o r] := by
  unfold HasSop at h
  cases hs : r.sopInstanceUID with
  | none => rw [hs] at h; exact h.elim
  | some u =>
    rw [hs] at h
    simp [unitCalls, unitCall, truthy?, hs, h]

theorem renderFetches_append (a b : List Event) :
    renderFetches (a ++ b) = renderFetches a ++ renderFetches b := by
  induction a with
  | nil => rfl
  | cons e rest ih =>
    cases e <;> simp [renderFetches, ih]
    rename_i st se sop o
    cases o <;> simp [renderFetches, ih]

theorem renderFetches_unitCalls_true (st : Option String) (se : String) (r : AttributeRecord) :
    renderFetches (unitCalls st se true r) = [] := by
  unfold unitCalls
  split <;> simp [renderFetches]

theorem renderFetches_unitCalls_false (st : Option String) (se : String) (r : AttributeRecord) :
    renderFetches (unitCalls st se false r) = unitCalls st se false r := by
  unfold unitCalls
  split <;> simp [renderFetches]

theorem renderFetches_flatMap_true (st : Option String) (se : String) (L : List AttributeRecord) :
    renderFetches (L.flatMap (unitCalls st se true)) = [] := by
  induction L with
  | nil => rfl
  | cons r rest ih => simp [List.flatMap_cons, renderFetches_append, renderFetches_unitCalls_true, ih]

/-- The tail loop issues one register-only fetch per record other than the one
at `first`, in list order. -/
theorem tailLoop_eq (st : Option String) (se : String) (first : Nat) (L : List AttributeRecord) :
    ∀ i, tailLoop st se first L i =
      ⟨(if first < i then L else L.eraseIdx (first - i)).flatMap (unitCalls st se true), .ok ()⟩ := by
  induction L with
  | nil => intro i; simp [tailLoop, pure_eq]
  | cons r rest ih =>
    intro i
    by_cases hi : i = first
    · subst hi
      simp [tailLoop, ih]
    · have hrun : tailLoop st se first (r :: rest) i =
          ⟨unitCalls st se true r ++
            (if first < i + 1 then rest else rest.eraseIdx (first - (i + 1))).flatMap
              (unitCalls st se true), .ok ()⟩ := by
        simp only [tailLoop, if_neg hi, ih, bind_eq]
        unfold unitCalls
        cases truthy? r.sopInstanceUID <;> simp [pure_eq, loadInstanceWadoRs_eq, bind_mk_ok]
      rw [hrun]
      by_cases hlt : first < i
      · have h1 : first < i + 1 := by omega
        simp [hlt, h1]
      · have h1 : ¬ first < i + 1 := by omega
        have h2 : first - i = (first - (i + 1)) + 1 := by omega
        simp only [if_neg hlt, if_neg h1]
        rw [h2, List.eraseIdx_cons_succ]
        simp

/-- The schedule of `loadSeriesWadoRs`: the calls for the record at
`firstInstanceIndex`, in render mode, then register-only calls for the others. -/
theorem loadSeriesWadoRs_eq (st : Option String) (se : String) (L : List AttributeRecord)
    (head : AttributeRecord) (hhead : L[firstInstanceIndex L]? = some head) :
    loadSeriesWadoRs st se L =
      ⟨unitCalls st se false head ++
        (L.eraseIdx (firstInstanceIndex L)).flatMap (unitCalls st se true), .ok ()⟩ := by
  have hne : ¬ L.length = 0 := by
    intro h
    have : L = [] := List.length_eq_zero.mp h
    subst this
    simp at hhead
  simp only [loadSeriesWadoRs, if_neg hne, hhead, tailLoop_eq, bind_eq]
  unfold unitCalls
  cases truthy? head.sopInstanceUID <;> simp [pure_eq, loadInstanceWadoRs_eq, bind_mk_ok]

theorem loadFilteredInstances_eq_loadSeriesWadoRs (st : Option String) (se : String)
    (L : List AttributeRecord) : loadFilteredInstances st se L = loadSeriesWadoRs st se L := rfl

/-- On numbers below the sentinel, the index chosen by the selection loop is a
position of the list, holds a least InstanceNumber, and is the first position
that does. -/
theorem firstInstanceIndex_spec (L : List AttributeRecord) (hne : L ≠ [])
    (hbound : ∀ r ∈ L, ∀ v ∈ r.instanceNumber, ∃ n, v = .number n ∧ n < Number.MAX_VALUE) :
    ∃ head, L[firstInstanceIndex L]? = some head ∧
      (∀ r ∈ L, numLE (denotedNumber head) (denotedNumber r)) ∧
      (∀ j r, j < firstInstanceIndex L → L[j]? = some r →
        ¬ numLE (denotedNumber r) (denotedNumber head)) := by
  have hnumber : ∀ r ∈ L, ∀ v, r.instanceNumber = some v → ∃ n, v = .number n := by
    intro r hr v hv
    obtain ⟨n, hn, _⟩ := hbound r hr v (by simp [hv])
    exact ⟨n, hn⟩
  rcases selectLoop_spec L hnumber 0 Number.MAX_VALUE 0 with
    ⟨hk, hall⟩ | ⟨j, head, n, hk, hj, hn, _, hmin, hfirst⟩
  · have hnone : ∀ r ∈ L, r.instanceNumber = none := by
      intro r hr
      cases hn : r.instanceNumber with
      | none => rfl
      | some v =>
        obtain ⟨n, hvn, h2⟩ := hbound r hr v (by simp [hn])
        subst hvn
        have h1 := hall r hr n hn
        exact absurd h1 (not_le.mpr h2)
    cases L with
    | nil => exact absurd rfl hne
    | cons r rest =>
      refine ⟨r, ?_, ?_, ?_⟩
      · show (r :: rest)[selectLoop (r :: rest) 0 (.number Number.MAX_VALUE) 0]? = some r
        rw [hk]; simp
      · intro r2 hr2
        rw [denotedNumber_of_none r2 (hnone r2 hr2)]
        cases denotedNumber r <;> trivial
      · intro j r2 hj
        have : firstInstanceIndex (r :: rest) = 0 := hk
        omega
  · have hk2 : firstInstanceIndex L = j := by
      show selectLoop L 0 (.number Number.MAX_VALUE) 0 = j
      rw [hk]; omega
    have hden := denotedNumber_of_number head n hn
    refine ⟨head, by rw [hk2]; exact hj, ?_, ?_⟩
    · intro r hr; rw [hden]; exact hmin r hr
    · intro j2 r hj2 hr
      rw [hden]
      exact hfirst j2 r (by omega) hr

theorem firstInstanceIndex_valid (L : List AttributeRecord) (hne : L ≠ []) :
    ∃ head, L[firstInstanceIndex L]? = some head := by
  rcases selectLoop_valid L 0 (.number Number.MAX_VALUE) 0 with hk | ⟨j, hj, hk⟩
  · cases L with
    | nil => exact absurd rfl hne
    | cons r rest =>
      refine ⟨r, ?_⟩
      show (r :: rest)[selectLoop (r :: rest) 0 (.number Number.MAX_VALUE) 0]? = some r
      rw [hk]; simp
  · refine ⟨L[j], ?_⟩
    show L[selectLoop L 0 (.number Number.MAX_VALUE) 0]? = some L[j]
    rw [hk, Nat.zero_add]
    exact List.getElem?_eq_getElem hj

/-- C1, the code at failing inputs: the selection loop applies `<` to the raw
first values.  For the instances `A` with InstanceNumber `"10"` and `B` with
`"9"`, `"10"` is below the sentinel as a number, then `"9" < "10"` is a
comparison of strings and is false, so `firstInstanceIndex` is 0 and
`loadSeriesWadoRs` and `loadFilteredInstances` fetch `A` in render mode,
although `B` denotes the least InstanceNumber.  For `C` without InstanceNumber
followed by `D` with InstanceNumber `Number.MAX_VALUE`, the value is not below
the sentinel and `C` stays the head.  For every non-empty list whose
InstanceNumbers are numbers below the sentinel the claim holds: the record at
`firstInstanceIndex` has an InstanceNumber less than or equal to that of every
record, an absent value counting as positive infinity, every earlier record
has a strictly greater one, the index is 0 when InstanceNumber is absent
everywhere, and in both methods the render-mode fetch is that of this record,
issued before all others, none of which is in render mode. -/
theorem head_selection_compares_raw_values :
    firstInstanceIndex stringNumberedSeries = 0 ∧
    stringNumberedSeries.map denotedNumber = [some 10, some 9] ∧
    jsLess (.string "10") (.number Number.MAX_VALUE) = true ∧
    jsLess (.string "9") (.string "10") = false ∧
    (loadSeriesWadoRs (some "S") "X" stringNumberedSeries).trace
      = [.loadInstanceWadoRs (some "S") "X" "A" false,
         .loadInstanceWadoRs (some "S") "X" "B" true] ∧
    (loadFilteredInstances (some "S") "X" stringNumberedSeries).trace
      = [.loadInstanceWadoRs (some "S") "X" "A" false,
         .loadInstanceWadoRs (some "S") "X" "B" true] ∧
    firstInstanceIndex sentinelSeries = 0 ∧
    sentinelSeries.map denotedNumber = [none, some Number.MAX_VALUE] ∧
    (loadSeriesWadoRs (some "S") "X" sentinelSeries).trace
      = [.loadInstanceWadoRs (some "S") "X" "C" false,
         .loadInstanceWadoRs (some "S") "X" "D" true] ∧
    (∀ (studyUid : Option String) (seriesUid : String) (instances : List AttributeRecord),
      instances ≠ [] →
      (∀ r ∈ instances, ∀ v ∈ r.instanceNumber, ∃ n, v = .number n ∧ n < Number.MAX_VALUE) →
      ∃ head rest,
        instances[firstInstanceIndex instances]? = some head ∧
        (∀ r ∈ instances, numLE (denotedNumber head) (denotedNumber r)) ∧
        (∀ j r, j < firstInstanceIndex instances → instances[j]? = some r →
          ¬ numLE (denotedNumber r) (denotedNumber head)) ∧
        ((∀ r ∈ instances, r.instanceNumber = none) → firstInstanceIndex instances = 0) ∧
        (loadSeriesWadoRs studyUid seriesUid instances).trace
          = unitCalls studyUid seriesUid false head ++ rest ∧
        (loadFilteredInstances studyUid seriesUid instances).trace
          = unitCalls studyUid seriesUid false head ++ rest ∧
        renderFetches rest = []) := by
  refine ⟨by decide, by decide, by decide, by decide, by decide, by decide, by decide,
    by decide, by decide, ?_⟩
  intro studyUid seriesUid instances hne hbound
  obtain ⟨head, hhead, hmin, hfirst⟩ := firstInstanceIndex_spec instances hne hbound
  refine ⟨head, (instances.eraseIdx (firstInstanceIndex instances)).flatMap
    (unitCalls studyUid seriesUid true), hhead, hmin, hfirst, ?_, ?_, ?_, ?_⟩
  · intro hnone
    by_contra hk
    cases instances with
    | nil => exact hne rfl
    | cons r tl =>
      have h0 : (r :: tl)[0]? = some r := by simp
      apply hfirst 0 r (Nat.pos_of_ne_zero hk) h0
      have hmem : head ∈ r :: tl := List.getElem?_mem hhead
      rw [denotedNumber_of_none head (hnone head hmem)]
      cases denotedNumber r <;> trivial
  · rw [loadSeriesWadoRs_eq studyUid seriesUid instances head hhead]
  · rw [loadFilteredInstances_eq_loadSeriesWadoRs,
      loadSeriesWadoRs_eq studyUid seriesUid instances head hhead]
  · exact renderFetches_flatMap_true studyUid seriesUid _

/-- C5: for a non-empty list in which every record carries a SOPInstanceUID,
`loadSeriesWadoRs` completes and its calls of `loadInstanceWadoRs` are the
head unit with `onlyLoad = false` followed by the units at all other positions,
in list order, with `onlyLoad = true`; the number of calls is the length of
the list and exactly one call is in render mode. -/
theorem head_then_tail_schedule (studyUid : Option String) (seriesUid : String)
    (instances : List AttributeRecord) (hne : instances ≠ [])
    (hsop : ∀ r ∈ instances, HasSop r) :
    ∃ head,
      instances[firstInstanceIndex instances]? = some head ∧
      (loadSeriesWadoRs studyUid seriesUid instances).result = .ok () ∧
      (loadSeriesWadoRs studyUid seriesUid instances).trace
        = unitCall studyUid seriesUid false head ::
          (instances.eraseIdx (firstInstanceIndex instances)).map
            (unitCall studyUid seriesUid true) ∧
      (loadSeriesWadoRs studyUid seriesUid instances).trace.length = instances.length ∧
      renderFetches (loadSeriesWadoRs studyUid seriesUid instances).trace
        = [unitCall studyUid seriesUid false head] := by
  obtain ⟨head, hhead⟩ := firstInstanceIndex_valid instances hne
  have hmem : head ∈ instances := List.getElem?_mem hhead
  have hlt : firstInstanceIndex instances < instances.length := by
    rcases List.getElem?_eq_some.mp hhead with ⟨h, _⟩
    exact h
  have htail : (instances.eraseIdx (firstInstanceIndex instances)).flatMap
      (unitCalls studyUid seriesUid true)
      = (instances.eraseIdx (firstInstanceIndex instances)).map
          (unitCall studyUid seriesUid true) := by
    have hsub : ∀ r ∈ instances.eraseIdx (firstInstanceIndex instances), HasSop r :=
      fun r hr => hsop r ((List.eraseIdx_sublist _ _).subset hr)
    generalize instances.eraseIdx (firstInstanceIndex instances) = M at hsub
    induction M with
    | nil => rfl
    | cons r tl ih =>
      have h1 := unitCalls_of_hasSop studyUid seriesUid true r (hsub r (List.mem_cons_self _ _))
      have h2 := ih (fun x hx => hsub x (List.mem_cons_of_mem _ hx))
      simp [List.flatMap_cons, h1, h2]
  have htrace : (loadSeriesWadoRs studyUid seriesUid instances).trace
      = unitCall studyUid seriesUid false head ::
        (instances.eraseIdx (firstInstanceIndex instances)).map
          (unitCall studyUid seriesUid true) := by
    rw [loadSeriesWadoRs_eq studyUid seriesUid instances head hhead, htail,
      unitCalls_of_hasSop studyUid seriesUid false head (hsop head hmem)]
    rfl
  refine ⟨head, hhead, ?_, htrace, ?_, ?_⟩
  · rw [loadSeriesWadoRs_eq studyUid seriesUid instances head hhead]
  · rw [htrace]
    simp [List.length_eraseIdx, hlt]
    omega
  · rw [loadSeriesWadoRs_eq studyUid seriesUid instances head hhead]
    simp only [renderFetches_append, renderFetches_flatMap_true, renderFetches_unitCalls_false,
      List.append_nil]
    exact unitCalls_of_hasSop studyUid seriesUid false head (hsop head hmem)

/-- C5 at a three-record series. -/
theorem head_then_tail_schedule_witness :
    exampleSeries ≠ [] ∧ (∀ r ∈ exampleSeries, HasSop r) ∧
    ∃ head,
      exampleSeries[firstInstanceIndex exampleSeries]? = some head ∧
      (loadSeriesWadoRs (some "S") "X" exampleSeries).result = .ok () ∧
      (loadSeriesWadoRs (some "S") "X" exampleSeries).trace
        = unitCall (some "S") "X" false head ::
          (exampleSeries.eraseIdx (firstInstanceIndex exampleSeries)).map
            (unitCall (some "S") "X" true) ∧
      (loadSeriesWadoRs (some "S") "X" exampleSeries).trace.length = exampleSeries.length ∧
      renderFetches (loadSeriesWadoRs (some "S") "X" exampleSeries).trace
        = [unitCall (some "S") "X" false head] :=
  ⟨by decide, by decide,
    head_then_tail_schedule (some "S") "X" exampleSeries (by decide) (by decide)⟩

theorem forEach_eq {α : Type} (l : List α) (body : α → Outcome Unit)
    (h : ∀ a ∈ l, (body a).result = .ok ()) :
    forEach l body = ⟨l.flatMap fun a => (body a).trace, .ok ()⟩ := by
  induction l with
  | nil => rfl
  | cons a rest ih =>
    have ha := h a (List.mem_cons_self _ _)
    have hrest := ih (fun x hx => h x (List.mem_cons_of_mem _ hx))
    have hbody : body a = ⟨(body a).trace, .ok ()⟩ := by
      rw [← ha]
    simp only [forEach, bind_eq, hrest]
    rw [hbody, bind_mk_ok]
    simp

theorem fetchStudySeries_eq (srv : Server) (studyUid : String) :
    fetchStudySeries srv studyUid =
      ⟨.fetch (.studySeries studyUid) ::
        (if listingThrew (srv.studySeries studyUid)
          then [.consoleError "Failed to fetch study series:"] else []),
        .ok (listingOf (srv.studySeries studyUid))⟩ := by
  unfold fetchStudySeries listingThrew listingOf
  cases srv.studySeries studyUid with
  | rejected m => rfl
  | resolved res =>
    rcases res with ⟨ok, status, text, body⟩
    cases ok <;> cases body <;> rfl

theorem fetchSeriesInstances_eq (srv : Server) (studyUid seriesUid : String) :
    fetchSeriesInstances srv studyUid seriesUid =
      ⟨.fetch (.seriesInstances studyUid seriesUid) ::
        (if listingThrew (srv.seriesInstances studyUid seriesUid)
          then [.consoleError "Failed to fetch series instances:"] else []),
        .ok (listingOf (srv.seriesInstances studyUid seriesUid))⟩ := by
  unfold fetchSeriesInstances listingThrew listingOf
  cases srv.seriesInstances studyUid seriesUid with
  | rejected m => rfl
  | resolved res =>
    rcases res with ⟨ok, status, text, body⟩
    cases ok <;> cases body <;> rfl

theorem listingOf_failed (reply : FetchResult (List AttributeRecord)) (h : ListingFailed reply) :
    listingOf reply = [] := by
  unfold ListingFailed at h
  unfold listingOf
  cases reply with
  | rejected m => rfl
  | resolved res =>
    rcases res with ⟨ok, status, text, body⟩
    rcases h with h | ⟨e, h⟩
    · simp only at h; subst h; rfl
    · simp only at h; subst h; cases ok <;> rfl

theorem loadSeriesWadoRs_nil (st : Option String) (se : String) :
    loadSeriesWadoRs st se [] = ⟨[], .ok ()⟩ := rfl

theorem loadSeriesWadoRs_result (st : Option String) (se : String) (L : List AttributeRecord) :
    (loadSeriesWadoRs st se L).result = .ok () := by
  cases L with
  | nil => rfl
  | cons r rest =>
    obtain ⟨head, hhead⟩ := firstInstanceIndex_valid (r :: rest) (by simp)
    rw [loadSeriesWadoRs_eq st se _ head hhead]

/-- The calls made for one listed series: the listing request, `setTotal` with
the length of a non-empty listing, then the schedule of `loadSeriesWadoRs`. -/
theorem loadListedSeries_eq (srv : Server) (studyUid seriesUid : String) :
    loadListedSeries srv studyUid seriesUid =
      ⟨(fetchSeriesInstances srv studyUid seriesUid).trace ++
        (if (listingOf (srv.seriesInstances studyUid seriesUid)).length > 0
          then [.setTotal seriesUid (listingOf (srv.seriesInstances studyUid seriesUid)).length]
          else []) ++
        (loadSeriesWadoRs (some studyUid) seriesUid
          (listingOf (srv.seriesInstances studyUid seriesUid))).trace, .ok ()⟩ := by
  have hres := loadSeriesWadoRs_result (some studyUid) seriesUid
    (listingOf (srv.seriesInstances studyUid seriesUid))
  have hrun : loadSeriesWadoRs (some studyUid) seriesUid
      (listingOf (srv.seriesInstances studyUid seriesUid))
      = ⟨(loadSeriesWadoRs (some studyUid) seriesUid
          (listingOf (srv.seriesInstances studyUid seriesUid))).trace, .ok ()⟩ := by
    rw [← hres]
  unfold loadListedSeries
  rw [fetchSeriesInstances_eq]
  simp only [bind_eq, bind_mk_ok]
  rw [hrun]
  by_cases hlen : (listingOf (srv.seriesInstances studyUid seriesUid)).length > 0
  · simp [hlen, emit, Outcome.bind]
  · simp [hlen, pure_eq, Outcome.bind]

theorem loadListedSeries_result (srv : Server) (st se : String) :
    (loadListedSeries srv st se).result = .ok () := by
  rw [loadListedSeries_eq]

/-- The double loop over target studies and their listed series, for a loop
body that always completes. -/
theorem studyLoop_eq (srv : Server) (targets : List Target)
    (body : String → AttributeRecord → Outcome Unit)
    (hbody : ∀ st series, (body st series).result = .ok ()) :
    (forEach targets fun target => do
      let seriesList ← fetchStudySeries srv target.targetId
      if seriesList.length = 0 then pure () else forEach seriesList (body target.targetId))
    = ⟨targets.flatMap fun t =>
        (fetchStudySeries srv t.targetId).trace ++
          (listingOf (srv.studySeries t.targetId)).flatMap fun series =>
            (body t.targetId series).trace, .ok ()⟩ := by
  have hstep : ∀ t : Target,
      (do
        let seriesList ← fetchStudySeries srv t.targetId
        if seriesList.length = 0 then pure () else forEach seriesList (body t.targetId))
      = (⟨(fetchStudySeries srv t.targetId).trace ++
          (listingOf (srv.studySeries t.targetId)).flatMap fun series =>
            (body t.targetId series).trace, .ok ()⟩ : Outcome Unit) := by
    intro t
    rw [fetchStudySeries_eq]
    simp only [bind_eq, bind_mk_ok]
    by_cases hlen : (listingOf (srv.studySeries t.targetId)).length = 0
    · have hnil : listingOf (srv.studySeries t.targetId) = [] := List.length_eq_zero.mp hlen
      simp [hnil, pure_eq]
    · rw [if_neg hlen, forEach_eq _ _ (fun a _ => hbody t.targetId a)]
  rw [forEach_eq _ _ (fun t _ => by rw [hstep t])]
  congr 1
  apply List.flatMap_congr
  intro t _
  rw [hstep t]

/-- The calls of `loadStudies`: for each target study its series listing, then
for each listed series with a SeriesInstanceUID the calls of that series. -/
theorem loadStudies_eq (srv : Server) (targets : List Target) :
    loadStudies srv targets =
      ⟨targets.flatMap fun t =>
        (fetchStudySeries srv t.targetId).trace ++
          (listingOf (srv.studySeries t.targetId)).flatMap fun series =>
            match truthy? series.seriesInstanceUID with
            | none => []
            | some seriesUid => (loadListedSeries srv t.targetId seriesUid).trace, .ok ()⟩ := by
  have h := studyLoop_eq srv targets
    (fun st series =>
      match truthy? series.seriesInstanceUID with
      | none => pure ()
      | some seriesUid => loadListedSeries srv st seriesUid)
    (by
      intro st series
      beta_reduce
      cases truthy? series.seriesInstanceUID with
      | none => rfl
      | some se => exact loadListedSeries_result srv st se)
  unfold loadStudies
  rw [h]
  congr 1
  apply List.flatMap_congr
  intro t _
  congr 1
  apply List.flatMap_congr
  intro series _
  beta_reduce
  cases truthy? series.seriesInstanceUID <;> rfl

theorem unitCalls_subset_loadSeriesWadoRs (st : Option String) (se : String)
    (L : List AttributeRecord) (r : AttributeRecord) (hr : r ∈ L) :
    ∃ onlyLoad, unitCalls st se onlyLoad r ⊆ (loadSeriesWadoRs st se L).trace := by
  obtain ⟨head, hhead⟩ := firstInstanceIndex_valid L (List.ne_nil_of_mem hr)
  rw [loadSeriesWadoRs_eq st se L head hhead]
  obtain ⟨i, hi⟩ := List.getElem?_of_mem hr
  by_cases hik : i = firstInstanceIndex L
  · subst hik
    rw [hhead] at hi
    cases hi
    exact ⟨false, List.subset_append_left _ _⟩
  · refine ⟨true, ?_⟩
    have hmem : r ∈ L.eraseIdx (firstInstanceIndex L) := by
      rw [List.mem_eraseIdx_iff_getElem?]
      exact ⟨i, hik, hi⟩
    intro e he
    exact List.mem_append_right _ (List.mem_flatMap.mpr ⟨r, hmem, he⟩)

/-- C8: `fetchStudySeries` and `fetchSeriesInstances` never throw and return the
empty list when the request is rejected, the reply is not OK or its body cannot
be decoded; `loadStudies` always completes and runs every listed series of
every target study, whatever happened to the others; a series whose instance
listing failed gets no `setTotal` and no unit fetch; a series with a non-empty
listing gets `setTotal` with the listing length and the full schedule of
`loadSeriesWadoRs`, which fetches every unit carrying a SOPInstanceUID; and in
the three-series study whose second listing fails exactly the other two series
are loaded. -/
theorem listing_failure_is_isolated (srv : Server) :
    (∀ st, (fetchStudySeries srv st).result = .ok (listingOf (srv.studySeries st))) ∧
    (∀ st se, (fetchSeriesInstances srv st se).result
      = .ok (listingOf (srv.seriesInstances st se))) ∧
    (∀ reply, ListingFailed reply → listingOf reply = []) ∧
    (∀ targets, (loadStudies srv targets).result = .ok () ∧
      (loadStudies srv targets).trace = targets.flatMap fun t =>
        (fetchStudySeries srv t.targetId).trace ++
          (listingOf (srv.studySeries t.targetId)).flatMap fun series =>
            match truthy? series.seriesInstanceUID with
            | none => []
            | some seriesUid => (loadListedSeries srv t.targetId seriesUid).trace) ∧
    (∀ st se, ListingFailed (srv.seriesInstances st se) →
      ∀ e ∈ (loadListedSeries srv st se).trace, e.isSetTotal = false ∧ e.isUnitFetch = false) ∧
    (∀ st se, listingOf (srv.seriesInstances st se) ≠ [] →
      (loadListedSeries srv st se).trace
        = (fetchSeriesInstances srv st se).trace ++
          .setTotal se (listingOf (srv.seriesInstances st se)).length ::
            (loadSeriesWadoRs (some st) se (listingOf (srv.seriesInstances st se))).trace ∧
      ∀ r ∈ listingOf (srv.seriesInstances st se),
        ∃ onlyLoad, unitCalls (some st) se onlyLoad r ⊆ (loadListedSeries srv st se).trace) ∧
    (loadStudies threeSeriesServer [{ targetId := "S" }]).trace
      = [.fetch (.studySeries "S"),
         .fetch (.seriesInstances "S" "X"), .setTotal "X" 3,
         .loadInstanceWadoRs (some "S") "X" "B" false,
         .loadInstanceWadoRs (some "S") "X" "A" true,
         .loadInstanceWadoRs (some "S") "X" "C" true,
         .fetch (.seriesInstances "S" "Y"),
         .fetch (.seriesInstances "S" "Z"), .setTotal "Z" 1,
         .loadInstanceWadoRs (some "S") "Z" "D" false] := by
  refine ⟨?_, ?_, listingOf_failed, ?_, ?_, ?_, by decide⟩
  · intro st; rw [fetchStudySeries_eq]
  · intro st se; rw [fetchSeriesInstances_eq]
  · intro targets; rw [loadStudies_eq]; exact ⟨rfl, rfl⟩
  · intro st se hfail e he
    rw [loadListedSeries_eq, fetchSeriesInstances_eq, listingOf_failed _ hfail] at he
    simp only [List.length_nil, gt_iff_lt, Nat.lt_irrefl, if_false, List.append_nil,
      loadSeriesWadoRs_nil, List.mem_cons] at he
    rcases he with he | he
    · subst he; exact ⟨rfl, rfl⟩
    · split at he
      · simp only [List.mem_singleton] at he
        subst he; exact ⟨rfl, rfl⟩
      · simp at he
  · intro st se hne
    have hlen : (listingOf (srv.seriesInstances st se)).length > 0 :=
      List.length_pos.mpr hne
    have htrace : (loadListedSeries srv st se).trace
        = (fetchSeriesInstances srv st se).trace ++
          .setTotal se (listingOf (srv.seriesInstances st se)).length ::
            (loadSeriesWadoRs (some st) se (listingOf (srv.seriesInstances st se))).trace := by
      rw [loadListedSeries_eq]
      simp [hlen]
    refine ⟨htrace, ?_⟩
    intro r hr
    obtain ⟨o, ho⟩ := unitCalls_subset_loadSeriesWadoRs (some st) se _ r hr
    refine ⟨o, ?_⟩
    rw [htrace]
    intro e he
    exact List.mem_append_right _ (List.mem_cons_of_mem _ (ho he))

/-- A flat listing inside `try`: on failure the handler runs after the request,
otherwise the continuation runs under the same handler. -/
theorem tryFlat_eq (url : Endpoint) (reply : FetchResult (List AttributeRecord))
    (failMsg : String) (k : List AttributeRecord → Outcome Unit)
    (handler : String → Outcome Unit) :
    tryCatch
      (do
        let response ← fetch url reply
        if !response.ok then raise failMsg else do
          let l ← response.json
          k l)
      handler
    = match flatListing reply failMsg with
      | .error e => ⟨.fetch url :: (handler e).trace, (handler e).result⟩
      | .ok l => ⟨.fetch url :: (tryCatch (k l) handler).trace, (tryCatch (k l) handler).result⟩ := by
  unfold flatListing
  cases reply with
  | rejected m => rfl
  | resolved res =>
    rcases res with ⟨ok, status, text, body⟩
    cases ok
    · rfl
    · cases body with
      | error e => rfl
      | ok l =>
        simp only [fetch, bind_eq, bind_mk_ok, HttpResponse.json, Bool.not_true,
          Bool.false_eq_true, if_false, if_true]
        unfold tryCatch
        simp only [List.nil_append]
        cases h : (k l).result <;> simp [h]

theorem tryCatch_ok {α : Type} (t : List Event) (a : α) (handler : String → Outcome α) :
    tryCatch ⟨t, .ok a⟩ handler = ⟨t, .ok a⟩ := rfl

/-- The calls of `loadSeries`. -/
theorem loadSeries_eq (srv : Server) (targets : List Target) :
    loadSeries srv targets =
      match flatListing srv.seriesList "Failed to fetch series list" with
      | .error e =>
        ⟨[.fetch .seriesList, .consoleError "Failed to load series:",
          .showDicomStatus ("Error loading series: " ++ e) true], .ok ()⟩
      | .ok l =>
        ⟨.fetch .seriesList :: l.flatMap fun series =>
          match truthy? series.studyInstanceUID, truthy? series.seriesInstanceUID with
          | some studyUid, some seriesUid => (loadListedSeries srv studyUid seriesUid).trace
          | _, _ => [], .ok ()⟩ := by
  unfold loadSeries
  rw [tryFlat_eq]
  cases flatListing srv.seriesList "Failed to fetch series list" with
  | error e => rfl
  | ok l =>
    simp only
    rw [forEach_eq, tryCatch_ok]
    · congr 2
      apply List.flatMap_congr
      intro series _
      cases truthy? series.studyInstanceUID <;> cases truthy? series.seriesInstanceUID <;> rfl
    · intro series _
      cases truthy? series.studyInstanceUID <;> cases truthy? series.seriesInstanceUID <;>
        first | rfl | exact loadListedSeries_result srv _ _

theorem matchesSop_iff (uids : List String) (r : AttributeRecord) :
    matchesSop uids r = true ↔ SopListed uids r := by
  unfold matchesSop SopListed HasSop truthy?
  cases hs : r.sopInstanceUID with
  | none => simp
  | some u =>
    by_cases hu : u = ""
    · simp [hu]
    · simp [hu]

theorem loadFilteredInstances_result (st : Option String) (se : String)
    (L : List AttributeRecord) : (loadFilteredInstances st se L).result = .ok () :=
  loadSeriesWadoRs_result st se L

/-- The calls made by `loadSpecifiedInstances` for one series. -/
theorem loadSpecifiedInstancesOfSeries_eq (srv : Server) (uids : List String)
    (st se : String) :
    loadSpecifiedInstancesOfSeries srv uids st se =
      ⟨(fetchSeriesInstances srv st se).trace ++
        (if (listingOf (srv.seriesInstances st se)).filter (matchesSop uids) = [] then []
          else .setTotal se ((listingOf (srv.seriesInstances st se)).filter
              (matchesSop uids)).length ::
            (loadFilteredInstances (some st) se
              ((listingOf (srv.seriesInstances st se)).filter (matchesSop uids))).trace),
        .ok ()⟩ := by
  unfold loadSpecifiedInstancesOfSeries
  rw [fetchSeriesInstances_eq]
  simp only [bind_eq, bind_mk_ok]
  generalize listingOf (srv.seriesInstances st se) = L
  by_cases hL : L.length = 0
  · have : L = [] := List.length_eq_zero.mp hL
    subst this
    simp [pure_eq]
  · rw [if_neg hL]
    by_cases hW : L.filter (matchesSop uids) = []
    · simp [hW, pure_eq]
    · have hpos : (L.filter (matchesSop uids)).length > 0 := List.length_pos.mpr hW
      have hres := loadFilteredInstances_result (some st) se (L.filter (matchesSop uids))
      have hrun : loadFilteredInstances (some st) se (L.filter (matchesSop uids))
          = ⟨(loadFilteredInstances (some st) se (L.filter (matchesSop uids))).trace, .ok ()⟩ := by
        rw [← hres]
      rw [if_pos hpos, if_neg hW, hrun]
      simp [emit, Outcome.bind]

theorem loadSpecifiedInstancesOfSeries_result (srv : Server) (uids : List String)
    (st se : String) : (loadSpecifiedInstancesOfSeries srv uids st se).result = .ok () := by
  rw [loadSpecifiedInstancesOfSeries_eq]

/-- The calls of `loadSpecifiedInstances` for a study share. -/
theorem loadSpecifiedInstances_study_eq (srv : Server) (self : Loader) (spec : String)
    (hspec : self.specifiedSopUid = some spec) (targets : List Target) :
    loadSpecifiedInstances srv self targets "study" =
      ⟨targets.flatMap fun t =>
        (fetchStudySeries srv t.targetId).trace ++
          (listingOf (srv.studySeries t.targetId)).flatMap fun series =>
            match truthy? series.seriesInstanceUID with
            | none => []
            | some seriesUid =>
              (loadSpecifiedInstancesOfSeries srv (splitUids spec) t.targetId seriesUid).trace,
        .ok ()⟩ := by
  have h := studyLoop_eq srv targets
    (fun st series =>
      match truthy? series.seriesInstanceUID with
      | none => pure ()
      | some seriesUid => loadSpecifiedInstancesOfSeries srv (splitUids spec) st seriesUid)
    (by
      intro st series
      beta_reduce
      cases truthy? series.seriesInstanceUID with
      | none => rfl
      | some se => exact loadSpecifiedInstancesOfSeries_result srv _ st se)
  unfold loadSpecifiedInstances
  rw [hspec]
  simp only [if_true]
  rw [h]
  congr 1
  apply List.flatMap_congr
  intro t _
  congr 1
  apply List.flatMap_congr
  intro series _
  beta_reduce
  cases truthy? series.seriesInstanceUID <;> rfl

/-- The calls of `loadSpecifiedInstances` for a series share. -/
theorem loadSpecifiedInstances_series_eq (srv : Server) (self : Loader) (spec : String)
    (hspec : self.specifiedSopUid = some spec) (targets : List Target) :
    loadSpecifiedInstances srv self targets "series" =
      match flatListing srv.seriesList "Failed to fetch series list" with
      | .error e =>
        ⟨[.fetch .seriesList, .consoleError "Failed to load specified instances:",
          .showDicomStatus ("Error loading instances: " ++ e) true], .ok ()⟩
      | .ok l =>
        ⟨.fetch .seriesList :: l.flatMap fun series =>
          match truthy? series.studyInstanceUID, truthy? series.seriesInstanceUID with
          | some studyUid, some seriesUid =>
            (loadSpecifiedInstancesOfSeries srv (splitUids spec) studyUid seriesUid).trace
          | _, _ => [], .ok ()⟩ := by
  unfold loadSpecifiedInstances
  rw [hspec]
  have hne : ¬ ("series" = "study") := by decide
  simp only [if_neg hne, if_true]
  rw [tryFlat_eq]
  cases flatListing srv.seriesList "Failed to fetch series list" with
  | error e => rfl
  | ok l =>
    simp only
    rw [forEach_eq, tryCatch_ok]
    · congr 2
      apply List.flatMap_congr
      intro series _
      cases truthy? series.studyInstanceUID <;> cases truthy? series.seriesInstanceUID <;> rfl
    · intro series _
      cases truthy? series.studyInstanceUID <;> cases truthy? series.seriesInstanceUID <;>
        first | rfl | exact loadSpecifiedInstancesOfSeries_result srv _ _ _

/-- The calls of `loadSpecifiedSeries`. -/
theorem loadSpecifiedSeries_eq (srv : Server) (self : Loader) (spec : String)
    (hspec : self.specifiedSeriesUid = some spec) (targets : List Target) :
    loadSpecifiedSeries srv self targets =
      ⟨targets.flatMap fun t =>
        (fetchStudySeries srv t.targetId).trace ++
          (listingOf (srv.studySeries t.targetId)).flatMap fun series =>
            match truthy? series.seriesInstanceUID with
            | none => []
            | some seriesUid =>
              if (splitUids spec).contains seriesUid then
                (loadListedSeries srv t.targetId seriesUid).trace
              else [], .ok ()⟩ := by
  have h := studyLoop_eq srv targets
    (fun st series =>
      match truthy? series.seriesInstanceUID with
      | none => pure ()
      | some seriesUid =>
        if !(splitUids spec).contains seriesUid then pure ()
        else loadListedSeries srv st seriesUid)
    (by
      intro st series
      beta_reduce
      cases truthy? series.seriesInstanceUID with
      | none => rfl
      | some se =>
        simp only
        split
        · rfl
        · exact loadListedSeries_result srv st se)
  unfold loadSpecifiedSeries
  rw [hspec]
  simp only
  rw [h]
  congr 1
  apply List.flatMap_congr
  intro t _
  congr 1
  apply List.flatMap_congr
  intro series _
  beta_reduce
  cases truthy? series.seriesInstanceUID with
  | none => rfl
  | some se =>
    simp only
    cases (splitUids spec).contains se <;> rfl

/-- C2: in `loadSpecifiedInstances`, for a series with instance listing `L` and a
filter `F`, the worklist handed to `loadFilteredInstances` is the sub-list of
`L`, in order, of the records whose SOPInstanceUID is an element of the
trimmed, comma-split `F`; a non-empty worklist gets `setTotal` with its length
and is then loaded; an empty one gets no `setTotal` and no unit fetch; these
are the calls made for every series of a study share and of a series share;
and the filter `A, C` on the instances `A`, `B`, `C` keeps exactly `A` and `C`. -/
theorem sop_filter_worklist (srv : Server) (base : Loader) (F : String)
    (targets : List Target) (st se : String) :
    ((listingOf (srv.seriesInstances st se)).filter (matchesSop (splitUids F))).Sublist
      (listingOf (srv.seriesInstances st se)) ∧
    (listingOf (srv.seriesInstances st se)).filter (matchesSop (splitUids F))
      = (listingOf (srv.seriesInstances st se)).filter
          (fun r => decide (SopListed (splitUids F) r)) ∧
    ((listingOf (srv.seriesInstances st se)).filter (matchesSop (splitUids F)) ≠ [] →
      (loadSpecifiedInstancesOfSeries srv (splitUids F) st se).trace
        = (fetchSeriesInstances srv st se).trace ++
          .setTotal se ((listingOf (srv.seriesInstances st se)).filter
              (matchesSop (splitUids F))).length ::
            (loadFilteredInstances (some st) se
              ((listingOf (srv.seriesInstances st se)).filter
                (matchesSop (splitUids F)))).trace) ∧
    ((listingOf (srv.seriesInstances st se)).filter (matchesSop (splitUids F)) = [] →
      ∀ e ∈ (loadSpecifiedInstancesOfSeries srv (splitUids F) st se).trace,
        e.isSetTotal = false ∧ e.isUnitFetch = false) ∧
    (loadSpecifiedInstances srv { base with specifiedSopUid := some F } targets "study").trace
      = (targets.flatMap fun t =>
        (fetchStudySeries srv t.targetId).trace ++
          (listingOf (srv.studySeries t.targetId)).flatMap fun series =>
            match truthy? series.seriesInstanceUID with
            | none => []
            | some seriesUid =>
              (loadSpecifiedInstancesOfSeries srv (splitUids F) t.targetId seriesUid).trace) ∧
    (∀ l, flatListing srv.seriesList "Failed to fetch series list" = .ok l →
      (loadSpecifiedInstances srv { base with specifiedSopUid := some F } targets "series").trace
        = .fetch .seriesList :: l.flatMap fun series =>
          match truthy? series.studyInstanceUID, truthy? series.seriesInstanceUID with
          | some studyUid, some seriesUid =>
            (loadSpecifiedInstancesOfSeries srv (splitUids F) studyUid seriesUid).trace
          | _, _ => []) ∧
    splitUids "A, C" = ["A", "C"] ∧
    exampleSeries.filter (matchesSop (splitUids "A, C"))
      = [exampleRecord "X" "A" (some 3), exampleRecord "X" "C" (some 1)] := by
  refine ⟨List.filter_sublist _, ?_, ?_, ?_, ?_, ?_, by decide, by decide⟩
  · apply List.filter_congr
    intro r _
    by_cases h : SopListed (splitUids F) r
    · simp [h, (matchesSop_iff _ r).mpr h]
    · have : matchesSop (splitUids F) r = false := by
        cases hm : matchesSop (splitUids F) r
        · rfl
        · exact absurd ((matchesSop_iff _ r).mp hm) h
      simp [h, this]
  · intro hne
    rw [loadSpecifiedInstancesOfSeries_eq, if_neg hne]
  · intro hnil e he
    rw [loadSpecifiedInstancesOfSeries_eq, if_pos hnil, fetchSeriesInstances_eq] at he
    simp only [List.append_nil, List.mem_cons] at he
    rcases he with he | he
    · subst he; exact ⟨rfl, rfl⟩
    · split at he
      · simp only [List.mem_singleton] at he
        subst he; exact ⟨rfl, rfl⟩
      · simp at he
  · rw [loadSpecifiedInstances_study_eq srv _ F rfl]
  · intro l hl
    rw [loadSpecifiedInstances_series_eq srv _ F rfl, hl]

/-- C3, the code at a failing input: a study share of `S` opened with the series
filter `X` and no SOP filter is loaded by `loadStudies`, not by
`loadSpecifiedSeries`; series `Z`, which is not in the filter, gets its
`setTotal` and its unit fetch.  In general a study share without SOP filter is
loaded by `loadStudies`, whatever the series filter. -/
theorem study_share_ignores_series_filter :
    (loadByTargetType threeSeriesServer studyShareWithSeriesFilter).trace
      = .showDicomStatus "Loading shared images..." false ::
        (loadStudies threeSeriesServer [{ targetId := "S" }]).trace ∧
    (loadByTargetType threeSeriesServer studyShareWithSeriesFilter).trace
      ≠ .showDicomStatus "Loading shared images..." false ::
        (loadSpecifiedSeries threeSeriesServer studyShareWithSeriesFilter
          [{ targetId := "S" }]).trace ∧
    splitUids "X" = ["X"] ∧
    Event.setTotal "Z" 1 ∈ (loadByTargetType threeSeriesServer studyShareWithSeriesFilter).trace ∧
    Event.loadInstanceWadoRs (some "S") "Z" "D" false
      ∈ (loadByTargetType threeSeriesServer studyShareWithSeriesFilter).trace ∧
    (∀ (srv : Server) (self : Loader) (targets : List Target),
      self.shareInfo = some { targetType := "study", targets := targets } →
      truthy self.specifiedSopUid = false →
      (loadByTargetType srv self).trace
        = .showDicomStatus "Loading shared images..." false :: (loadStudies srv targets).trace) := by
  refine ⟨by decide, by decide, by decide, by decide, by decide, ?_⟩
  intro srv self targets hinfo hsop
  have hne : ¬ ("study" = "instance") := by decide
  unfold loadByTargetType
  rw [hinfo]
  simp only [hsop, Bool.false_eq_true, false_and, if_false, hne, and_false, if_true, bind_eq]
  rw [loadStudies_eq]
  rfl

theorem mem_trace_bind {α β : Type} (x : Outcome α) (f : α → Outcome β) (e : Event)
    (he : e ∈ (x >>= f).trace) : e ∈ x.trace ∨ ∃ a, e ∈ (f a).trace := by
  rw [bind_eq] at he
  unfold Outcome.bind at he
  cases hx : x.result with
  | error m => rw [hx] at he; exact Or.inl he
  | ok a =>
    rw [hx] at he
    rcases List.mem_append.mp he with h | h
    · exact Or.inl h
    · exact Or.inr ⟨a, h⟩

theorem mem_trace_tryCatch {α : Type} (body : Outcome α) (handler : String → Outcome α)
    (e : Event) (he : e ∈ (tryCatch body handler).trace) :
    e ∈ body.trace ∨ ∃ m, e ∈ (handler m).trace := by
  unfold tryCatch at he
  cases hb : body.result with
  | ok a => rw [hb] at he; exact Or.inl he
  | error m =>
    rw [hb] at he
    rcases List.mem_append.mp he with h | h
    · exact Or.inl h
    · exact Or.inr ⟨m, h⟩

theorem mem_trace_forEach {α : Type} (l : List α) (body : α → Outcome Unit) (e : Event)
    (he : e ∈ (forEach l body).trace) : ∃ a ∈ l, e ∈ (body a).trace := by
  induction l with
  | nil => simp [forEach, pure_eq] at he
  | cons a rest ih =>
    simp only [forEach] at he
    rcases mem_trace_bind _ _ e he with h | ⟨_, h⟩
    · exact ⟨a, List.mem_cons_self _ _, h⟩
    · obtain ⟨b, hb, hb2⟩ := ih h
      exact ⟨b, List.mem_cons_of_mem _ hb, hb2⟩

/-- The handlers of the promise chain of `shareWadorsLoader` touch no
bookkeeping counter. -/
theorem chain_no_bookkeeping (viewer : Viewer) (reply : FetchResult Bytes) (url : Endpoint)
    (onlyload : Bool) (e : Event)
    (he : e ∈ (tryCatch
      (do
        let res ← fetch url reply
        let resBlob ← checkStatus res
        decodeAndDispatch viewer onlyload resBlob)
      (fun message => do
        emit (.consoleError "Fetch error:")
        emit (.showDicomStatus ("Error: " ++ message) true))).trace) :
    e.isBookkeeping = false := by
  rcases mem_trace_tryCatch _ _ e he with h | ⟨m, h⟩
  · rcases mem_trace_bind _ _ e h with h | ⟨res, h⟩
    · simp only [fetch, List.mem_singleton] at h
      subst h; rfl
    · rcases mem_trace_bind _ _ e h with h | ⟨blob, h⟩
      · unfold checkStatus at h
        split at h
        · simp only [bind_eq, emit, raise, Outcome.bind, List.mem_append, List.mem_singleton,
            List.append_nil, List.not_mem_nil, or_false] at h
          rcases h with h | h <;> subst h <;> rfl
        · simp at h
      · unfold decodeAndDispatch at h
        rcases mem_trace_bind _ _ e h with h | ⟨bufs, h⟩
        · simp at h
        · obtain ⟨buf, _, h⟩ := mem_trace_forEach _ _ e h
          rcases mem_trace_bind _ _ e h with h | ⟨sop, h⟩
          · simp at h
          · split at h
            · simp only [List.mem_singleton] at h
              subst h; rfl
            · simp only [List.mem_singleton] at h
              subst h; rfl
  · simp only [bind_eq, emit, Outcome.bind, List.mem_append, List.mem_singleton] at h
    rcases h with h | h <;> subst h <;> rfl

theorem count_eq_zero_of_not_bookkeeping (t : List Event) (b : Event)
    (hb : b.isBookkeeping = true) (h : ∀ e ∈ t, e.isBookkeeping = false) : t.count b = 0 := by
  rw [List.count_eq_zero]
  intro hmem
  have := h b hmem
  rw [hb] at this
  cases this

/-- C9: whatever the outcome of the pipeline of `shareWadorsLoader(url, onlyload)`
(rejected request, non-success status, unreadable body, an exception in
decoding or dispatch, or success), its calls are the status message, one
increment of `NumOfFetchs`, then the handlers of the chain, which touch no
bookkeeping, then `finishOne(url)`: the increment happens exactly once, and
`finishOne` is called exactly once, for `url`, as the last call. -/
theorem unit_bookkeeping_exactly_once (viewer : Viewer) (reply : FetchResult Bytes)
    (url : Endpoint) (onlyload : Bool) :
    ∃ chain,
      (shareWadorsLoader viewer reply url onlyload).trace
        = [.showDicomStatus "Loading images..." false, .numOfFetchsIncrement] ++ chain
          ++ [.finishOne url] ∧
      chain.head? = some (.fetch url) ∧
      (∀ e ∈ chain, e.isBookkeeping = false) ∧
      (shareWadorsLoader viewer reply url onlyload).trace.count .numOfFetchsIncrement = 1 ∧
      (shareWadorsLoader viewer reply url onlyload).trace.count (.finishOne url) = 1 ∧
      (∀ u, Event.finishOne u ∈ (shareWadorsLoader viewer reply url onlyload).trace → u = url) := by
  have hno := chain_no_bookkeeping viewer reply url onlyload
  generalize hc : (tryCatch
      (do
        let res ← fetch url reply
        let resBlob ← checkStatus res
        decodeAndDispatch viewer onlyload resBlob)
      (fun message => do
        emit (.consoleError "Fetch error:")
        emit (.showDicomStatus ("Error: " ++ message) true))) = c at hno
  have htrace : (shareWadorsLoader viewer reply url onlyload).trace
      = [.showDicomStatus "Loading images..." false, .numOfFetchsIncrement] ++ c.trace
        ++ [.finishOne url] := by
    unfold shareWadorsLoader
    rw [hc]
    simp [bind_eq, emit, Outcome.bind, andFinally]
  have hhead : c.trace.head? = some (.fetch url) := by
    rw [← hc]
    unfold tryCatch
    simp only [bind_eq, fetch]
    cases reply with
    | rejected m => rfl
    | resolved res =>
      simp only [Outcome.bind]
      split <;> split <;> simp
  refine ⟨c.trace, htrace, hhead, hno, ?_, ?_, ?_⟩
  · rw [htrace]
    simp [List.count_append,
      count_eq_zero_of_not_bookkeeping c.trace .numOfFetchsIncrement rfl hno]
  · rw [htrace]
    simp [List.count_append,
      count_eq_zero_of_not_bookkeeping c.trace (.finishOne url) rfl hno]
  · intro u hu
    rw [htrace] at hu
    simp only [List.mem_append, List.mem_cons, List.mem_singleton, List.not_mem_nil,
      or_false] at hu
    rcases hu with (hu | hu) | hu
    · rcases hu with hu | hu <;> cases hu
    · have := hno _ hu
      cases this
    · cases hu; rfl

/-- A refused share resolution: `fetchShareInfo` issues the request, logs, sets
an error banner and returns `null`, leaving the loader as it was. -/
theorem fetchShareInfo_refused (srv : Server) (self : Loader)
    (htoken : truthy self.shareToken = true) (href : ShareRefused srv.share) :
    ∃ msg, fetchShareInfo srv self =
      ⟨[.fetch .share, .consoleError "Failed to fetch share info:",
        .showDicomStatus ("Error: " ++ msg) true], .ok (self, none)⟩ := by
  unfold fetchShareInfo
  simp only [htoken, Bool.not_true, Bool.false_eq_true, if_false]
  unfold ShareRefused at href
  cases hs : srv.share with
  | rejected m => rw [hs] at href; exact href.elim
  | resolved res =>
    rw [hs] at href
    rcases res with ⟨ok, status, text, body⟩
    simp only at href
    cases ok with
    | false =>
      cases body with
      | error m => exact ⟨m, rfl⟩
      | ok b => exact ⟨(truthy? b.error).getD "Failed to fetch share link", rfl⟩
    | true =>
      rcases href with h | ⟨b, hb, hbok⟩
      · cases h
      · subst hb
        refine ⟨(truthy? b.error).getD "Share link not accessible", ?_⟩
        simp [fetch, bind_eq, Outcome.bind, HttpResponse.json, hbok, tryCatch, raise, emit,
          pure_eq]

/-- C10: when the share-resolution reply is non-OK or its body has `ok = false`,
`fetchShareInfo` makes the one request, sets an error banner, leaves the loader
fields (so `shareInfo`) as they were and returns `null`; `init` then returns
`false` having made exactly these calls, so no listing request, no `setTotal`
and no unit fetch, and `shareInfo` is still unset on a fresh loader; and when
the URL carries no (or an empty) `shareToken`, `init` returns `false` with no
call at all.  The refused share of `refusingServer` is an instance. -/
theorem session_failure_builds_no_worklist (params : UrlParams) (srv : Server) (self : Loader) :
    (truthy self.shareToken = true → ShareRefused srv.share →
      ∃ msg, fetchShareInfo srv self =
        ⟨[.fetch .share, .consoleError "Failed to fetch share info:",
          .showDicomStatus ("Error: " ++ msg) true], .ok (self, none)⟩) ∧
    (truthy params.shareToken = true → ShareRefused srv.share →
      ∃ msg, init params srv self =
        ⟨[.fetch .share, .consoleError "Failed to fetch share info:",
          .showDicomStatus ("Error: " ++ msg) true],
          .ok ((getShareParams params self).1, false)⟩ ∧
        (getShareParams params self).1.shareInfo = self.shareInfo ∧
        ∀ e ∈ (init params srv self).trace,
          e.isSetTotal = false ∧ e.isUnitFetch = false ∧ (e.isRequest = true → e = .fetch .share)) ∧
    (truthy params.shareToken = false →
      init params srv self = ⟨[], .ok ((getShareParams params self).1, false)⟩) ∧
    init { shareToken := some "token", password := none, seriesInstanceUID := none,
           sopInstanceUID := none } refusingServer Loader.initial
      = ⟨[.fetch .share, .consoleError "Failed to fetch share info:",
          .showDicomStatus "Error: Invalid password" true],
          .ok ({ Loader.initial with shareToken := some "token", password := some "" }, false)⟩ := by
  refine ⟨fetchShareInfo_refused srv self, ?_, ?_, rfl⟩
  · intro htoken href
    have htoken1 : truthy (getShareParams params self).1.shareToken = true := htoken
    obtain ⟨msg, hmsg⟩ := fetchShareInfo_refused srv (getShareParams params self).1 htoken1 href
    have hinit : init params srv self =
        ⟨[.fetch .share, .consoleError "Failed to fetch share info:",
          .showDicomStatus ("Error: " ++ msg) true],
          .ok ((getShareParams params self).1, false)⟩ := by
      unfold init
      have h2 : (getShareParams params self).2 = params.shareToken := rfl
      simp only [h2, htoken, Bool.not_true, Bool.false_eq_true, if_false, hmsg, bind_eq,
        bind_mk_ok, pure_eq, List.append_nil]
    refine ⟨msg, hinit, rfl, ?_⟩
    intro e he
    rw [hinit] at he
    simp only [List.mem_cons, List.mem_singleton, List.not_mem_nil, or_false] at he
    rcases he with he | he | he <;> subst he
    · exact ⟨rfl, rfl, fun _ => rfl⟩
    · exact ⟨rfl, rfl, fun h => by cases h⟩
    · exact ⟨rfl, rfl, fun h => by cases h⟩
  · intro htoken
    unfold init
    have h2 : (getShareParams params self).2 = params.shareToken := rfl
    simp only [h2, htoken, Bool.not_false, if_true, pure_eq]

theorem ownProperty_eq_none_iff (g : GroupedBySeries) (k : String) :
    ownProperty g k = none ↔ k ∉ g.map Prod.fst := by
  induction g with
  | nil => simp [ownProperty]
  | cons e rest ih =>
    rcases e with ⟨k2, grp⟩
    by_cases h : k2 = k
    · simp [ownProperty, h]
    · simp [ownProperty, h, ih, Ne.symm h]

theorem ownProperty_of_mem (g : GroupedBySeries) (hnd : (g.map Prod.fst).Nodup) (k : String)
    (grp : SeriesGroup) (hmem : (k, grp) ∈ g) : ownProperty g k = some grp := by
  induction g with
  | nil => cases hmem
  | cons e rest ih =>
    rcases e with ⟨k2, grp2⟩
    simp only [List.map_cons, List.nodup_cons] at hnd
    rcases List.mem_cons.mp hmem with h | h
    · cases h; simp [ownProperty]
    · have hk : k ∈ rest.map Prod.fst := List.mem_map.mpr ⟨(k, grp), h, rfl⟩
      have hne : k2 ≠ k := fun heq => hnd.1 (heq ▸ hk)
      simp [ownProperty, hne, ih hnd.2 h]

theorem pushInstance_keys (g : GroupedBySeries) (k : String) (r : AttributeRecord) :
    (pushInstance g k r).map Prod.fst = g.map Prod.fst := by
  induction g with
  | nil => rfl
  | cons e rest ih =>
    rcases e with ⟨k2, grp⟩
    by_cases h : k2 = k
    · simp [pushInstance, h]
    · simp [pushInstance, h, ih]

theorem mem_pushInstance (g : GroupedBySeries) (hnd : (g.map Prod.fst).Nodup) (k : String)
    (r : AttributeRecord) (k2 : String) (grp2 : SeriesGroup) :
    (k2, grp2) ∈ pushInstance g k r ↔
      (k2 ≠ k ∧ (k2, grp2) ∈ g) ∨
      (k2 = k ∧ ∃ grp, (k, grp) ∈ g ∧ grp2 = { grp with instances := grp.instances ++ [r] }) := by
  induction g with
  | nil => simp [pushInstance]
  | cons e rest ih =>
    rcases e with ⟨k3, grp3⟩
    simp only [List.map_cons, List.nodup_cons] at hnd
    by_cases h : k3 = k
    · subst h
      have hnot : ∀ grp, (k3, grp) ∉ rest := fun grp hm =>
        hnd.1 (List.mem_map.mpr ⟨(k3, grp), hm, rfl⟩)
      simp only [pushInstance, if_true, List.mem_cons, Prod.mk.injEq]
      constructor
      · rintro (⟨h1, h2⟩ | h)
        · exact Or.inr ⟨h1, grp3, Or.inl (by simp), h2⟩
        · by_cases hk : k2 = k3
          · subst hk; exact absurd h (hnot _)
          · exact Or.inl ⟨hk, Or.inr h⟩
      · rintro (⟨h1, h2 | h2⟩ | ⟨h1, grp, h2 | h2, h3⟩)
        · exact absurd h2.1 h1
        · exact Or.inr h2
        · exact Or.inl ⟨h1, by rw [h3, h2.2]⟩
        · exact absurd h2 (hnot _)
    · simp only [pushInstance, if_neg h, List.mem_cons, Prod.mk.injEq, ih hnd.2]
      constructor
      · rintro (⟨h1, h2⟩ | ⟨h1, h2⟩ | ⟨h1, grp, h2, h3⟩)
        · exact Or.inl ⟨by rw [h1]; exact h, Or.inl ⟨h1, h2⟩⟩
        · exact Or.inl ⟨h1, Or.inr h2⟩
        · exact Or.inr ⟨h1, grp, Or.inr h2, h3⟩
      · rintro (⟨h1, h2 | h2⟩ | ⟨h1, grp, h2 | h2, h3⟩)
        · exact Or.inl h2
        · exact Or.inr (Or.inl ⟨h1, h2⟩)
        · exact absurd h2.1.symm h
        · exact Or.inr (Or.inr ⟨h1, grp, h2, h3⟩)

theorem groupOf_append (P L : List AttributeRecord) (k : String) :
    groupOf (P ++ L) k = groupOf P k ++ groupOf L k := by
  simp [groupOf]

theorem groupOf_singleton_self (r : AttributeRecord) (k : String) (h : seriesKey r = some k) :
    groupOf [r] k = [r] := by
  simp [groupOf, h]

theorem groupOf_singleton_other (r : AttributeRecord) (k : String) (h : seriesKey r ≠ some k) :
    groupOf [r] k = [] := by
  simp [groupOf, h]

theorem groupOf_eq_nil_of_not_key (P : List AttributeRecord) (k : String)
    (h : ∀ r ∈ P, seriesKey r ≠ some k) : groupOf P k = [] := by
  simp only [groupOf, List.filter_eq_nil_iff, decide_eq_true_eq]
  exact h

theorem groupsOf_skip (P : List AttributeRecord) (g : GroupedBySeries) (r : AttributeRecord)
    (hinv : GroupsOf P g) (hkey : seriesKey r = none) : GroupsOf (P ++ [r]) g := by
  obtain ⟨hnd, hgrp, hkeys⟩ := hinv
  have hother : ∀ k, groupOf (P ++ [r]) k = groupOf P k := by
    intro k
    rw [groupOf_append, groupOf_singleton_other r k (by rw [hkey]; simp), List.append_nil]
  refine ⟨hnd, ?_, ?_⟩
  · intro k grp hmem
    rw [hother k]
    exact hgrp k grp hmem
  · intro r2 hr2 k hk
    rcases List.mem_append.mp hr2 with h | h
    · exact hkeys r2 h k hk
    · simp only [List.mem_singleton] at h
      subst h
      rw [hkey] at hk
      cases hk

theorem groupsOf_create (P : List AttributeRecord) (g : GroupedBySeries) (r : AttributeRecord)
    (k : String) (hinv : GroupsOf P g) (hkey : seriesKey r = some k)
    (hnew : ownProperty g k = none) :
    GroupsOf (P ++ [r])
      (pushInstance (g ++ [(k, { studyUid := r.studyInstanceUID, instances := [] })]) k r) := by
  obtain ⟨hnd, hgrp, hkeys⟩ := hinv
  have hk : k ∉ g.map Prod.fst := (ownProperty_eq_none_iff g k).mp hnew
  have hnd2 : ((g ++ [(k, ({ studyUid := r.studyInstanceUID, instances := [] } : SeriesGroup))]).map
      Prod.fst).Nodup := by
    rw [List.map_append, List.nodup_append]
    refine ⟨hnd, by simp, ?_⟩
    intro a ha hb
    simp only [List.map_cons, List.map_nil, List.mem_singleton] at hb
    subst hb
    exact hk ha
  have hemptyP : groupOf P k = [] := by
    apply groupOf_eq_nil_of_not_key
    intro r2 hr2 h2
    exact hk (hkeys r2 hr2 k h2)
  refine ⟨by rw [pushInstance_keys]; exact hnd2, ?_, ?_⟩
  · intro k2 grp2 hmem
    rw [mem_pushInstance _ hnd2] at hmem
    rcases hmem with ⟨hne, hmem⟩ | ⟨heq, grp, hmem, hgrp2⟩
    · rcases List.mem_append.mp hmem with h | h
      · rw [groupOf_append, groupOf_singleton_other r k2
          (by rw [hkey]; intro h3; cases h3; exact hne rfl), List.append_nil]
        exact hgrp k2 grp2 h
      · simp only [List.mem_singleton, Prod.mk.injEq] at h
        exact absurd h.1 hne
    · subst heq
      rcases List.mem_append.mp hmem with h | h
      · exact absurd (List.mem_map.mpr ⟨(k2, grp), h, rfl⟩) hk
      · simp only [List.mem_singleton, Prod.mk.injEq, true_and] at h
        subst h
        subst hgrp2
        rw [groupOf_append, hemptyP, groupOf_singleton_self r k2 hkey]
        simp
  · intro r2 hr2 k2 hk2
    rw [pushInstance_keys, List.map_append]
    rcases List.mem_append.mp hr2 with h | h
    · exact List.mem_append_left _ (hkeys r2 h k2 hk2)
    · simp only [List.mem_singleton] at h
      subst h
      rw [hkey] at hk2
      cases hk2
      simp

theorem groupsOf_push (P : List AttributeRecord) (g : GroupedBySeries) (r : AttributeRecord)
    (k : String) (hinv : GroupsOf P g) (hkey : seriesKey r = some k)
    (hold : k ∈ g.map Prod.fst) : GroupsOf (P ++ [r]) (pushInstance g k r) := by
  obtain ⟨hnd, hgrp, hkeys⟩ := hinv
  refine ⟨by rw [pushInstance_keys]; exact hnd, ?_, ?_⟩
  · intro k2 grp2 hmem
    rw [mem_pushInstance _ hnd] at hmem
    rcases hmem with ⟨hne, hmem⟩ | ⟨heq, grp, hmem, hgrp2⟩
    · rw [groupOf_append, groupOf_singleton_other r k2
        (by rw [hkey]; intro h3; cases h3; exact hne rfl), List.append_nil]
      exact hgrp k2 grp2 hmem
    · subst heq
      obtain ⟨h1, h2, h3⟩ := hgrp k2 grp hmem
      subst hgrp2
      rw [groupOf_append, groupOf_singleton_self r k2 hkey]
      refine ⟨by simp [h1], by simp, ?_⟩
      simp only
      rw [h3]
      cases hP : groupOf P k2 with
      | nil => rw [hP] at h1; exact absurd h1 h2
      | cons a rest => rfl
  · intro r2 hr2 k2 hk2
    rw [pushInstance_keys]
    rcases List.mem_append.mp hr2 with h | h
    · exact hkeys r2 h k2 hk2
    · simp only [List.mem_singleton] at h
      subst h
      rw [hkey] at hk2
      cases hk2
      exact hold

/-- The grouping loop completes when no key is inherited from `Object.prototype`,
and then establishes the invariant for all records. -/
theorem groupLoop_spec (L : List AttributeRecord) :
    ∀ (P : List AttributeRecord) (g : GroupedBySeries), GroupsOf P g →
      (∀ r ∈ L, ∀ k, seriesKey r = some k → k ∉ objectPrototypeKeys) →
      ∃ G, groupLoop L g = ⟨[], .ok G⟩ ∧ GroupsOf (P ++ L) G := by
  induction L with
  | nil =>
    intro P g hinv _
    exact ⟨g, rfl, by simpa using hinv⟩
  | cons r rest ih =>
    intro P g hinv hproto
    have hrest : ∀ r2 ∈ rest, ∀ k, seriesKey r2 = some k → k ∉ objectPrototypeKeys :=
      fun r2 h => hproto r2 (List.mem_cons_of_mem _ h)
    have happ : P ++ r :: rest = (P ++ [r]) ++ rest := by simp
    rw [happ]
    cases hkey : seriesKey r with
    | none =>
      obtain ⟨G, hG, hinvG⟩ := ih (P ++ [r]) g (groupsOf_skip P g r hinv hkey) hrest
      refine ⟨G, ?_, hinvG⟩
      unfold seriesKey at hkey
      simp only [groupLoop, hkey]
      exact hG
    | some k =>
      have hk : k ∉ objectPrototypeKeys := hproto r (List.mem_cons_self _ _) k hkey
      cases hown : ownProperty g k with
      | none =>
        obtain ⟨G, hG, hinvG⟩ := ih (P ++ [r]) _ (groupsOf_create P g r k hinv hkey hown) hrest
        refine ⟨G, ?_, hinvG⟩
        unfold seriesKey at hkey
        simp only [groupLoop, hkey, if_neg hk, hown]
        exact hG
      | some grp =>
        have hold : k ∈ g.map Prod.fst := by
          by_contra hnot
          rw [(ownProperty_eq_none_iff g k).mpr hnot] at hown
          cases hown
        obtain ⟨G, hG, hinvG⟩ := ih (P ++ [r]) _ (groupsOf_push P g r k hinv hkey hold) hrest
        refine ⟨G, ?_, hinvG⟩
        unfold seriesKey at hkey
        simp only [groupLoop, hkey, if_neg hk, hown]
        exact hG

theorem groupsOf_nil : GroupsOf [] [] := by
  refine ⟨by simp, ?_, ?_⟩
  · intro k grp h; cases h
  · intro r h; cases h

theorem groupLoop_throws (L : List AttributeRecord) :
    ∀ g : GroupedBySeries,
      (∃ r ∈ L, ∃ k, seriesKey r = some k ∧ k ∈ objectPrototypeKeys) →
      groupLoop L g = ⟨[], .error "TypeError"⟩ := by
  induction L with
  | nil => intro g h; obtain ⟨r, hr, _⟩ := h; cases hr
  | cons r rest ih =>
    intro g h
    have hrest : (¬ ∃ k, seriesKey r = some k ∧ k ∈ objectPrototypeKeys) →
        ∃ r2 ∈ rest, ∃ k, seriesKey r2 = some k ∧ k ∈ objectPrototypeKeys := by
      intro hnot
      obtain ⟨r2, hr2, k, hk⟩ := h
      rcases List.mem_cons.mp hr2 with h2 | h2
      · subst h2; exact absurd ⟨k, hk⟩ hnot
      · exact ⟨r2, h2, k, hk⟩
    cases hkey : seriesKey r with
    | none =>
      have := hrest (by rw [hkey]; simp)
      unfold seriesKey at hkey
      simp only [groupLoop, hkey]
      exact ih _ this
    | some k =>
      by_cases hk : k ∈ objectPrototypeKeys
      · unfold seriesKey at hkey
        simp only [groupLoop, hkey, if_pos hk]
        rfl
      · have := hrest (by
          rw [hkey]
          rintro ⟨k2, h1, h2⟩
          cases h1
          exact hk h2)
        unfold seriesKey at hkey
        simp only [groupLoop, hkey, if_neg hk]
        split <;> exact ih _ this

theorem objectKeys_perm (g : GroupedBySeries) : (objectKeys g).Perm (g.map Prod.fst) := by
  unfold objectKeys
  have h1 := List.perm_insertionSort
    (fun a b : String => (arrayIndex? a).getD 0 ≤ (arrayIndex? b).getD 0)
    ((g.map Prod.fst).filter fun k => (arrayIndex? k).isSome)
  have h2 : ((g.map Prod.fst).filter fun k => (arrayIndex? k).isNone)
      = (g.map Prod.fst).filter fun k => !(arrayIndex? k).isSome := by
    apply List.filter_congr
    intro k _
    cases arrayIndex? k <;> rfl
  simp only [h2]
  exact (List.Perm.append_right _ h1).trans (List.filter_append_perm _ _)

theorem instanceLoop_succ (st : Option String) (k : String) (M : List AttributeRecord) :
    ∀ i, instanceLoop st k M (i + 1) = ⟨M.flatMap (unitCalls st k true), .ok ()⟩ := by
  induction M with
  | nil => intro i; rfl
  | cons r rest ih =>
    intro i
    simp only [instanceLoop, ih, List.flatMap_cons, unitCalls]
    cases truthy? r.sopInstanceUID <;> simp [loadInstanceWadoRs_eq, bind_eq, bind_mk_ok]

theorem instanceLoop_zero (st : Option String) (k : String) (M : List AttributeRecord) :
    instanceLoop st k M 0 =
      ⟨match M with
        | [] => []
        | first :: rest => unitCalls st k false first ++ rest.flatMap (unitCalls st k true),
        .ok ()⟩ := by
  cases M with
  | nil => rfl
  | cons r rest =>
    simp only [instanceLoop, instanceLoop_succ, unitCalls]
    cases truthy? r.sopInstanceUID <;> simp [loadInstanceWadoRs_eq, bind_eq, bind_mk_ok]

/-- C6, the code at a failing input: for the flat listing `A` (InstanceNumber
3), `B` (1), `C` (1) of series `X` and `D` of series `Z`, `loadInstances`
dispatches `A`, the first listed unit of `X`, in render mode, although the
least InstanceNumber of the group is that of `B`, which `loadSeriesWadoRs`
selects for the same records; in general the inner loop of `loadInstances`
puts the unit at position 0 of the group in render mode, whatever the
InstanceNumbers. -/
theorem loadInstances_renders_first_listed :
    renderFetches (loadInstances threeSeriesServer []).trace
      = [.loadInstanceWadoRs (some "S") "X" "A" false,
         .loadInstanceWadoRs (some "S") "Z" "D" false] ∧
    renderFetches (loadSeriesWadoRs (some "S") "X" exampleSeries).trace
      = [.loadInstanceWadoRs (some "S") "X" "B" false] ∧
    (exampleRecord "X" "B" (some 1)).instanceNumber = some 1 ∧
    (exampleRecord "X" "A" (some 3)).instanceNumber = some 3 ∧
    (∀ (st : Option String) (k : String) (first : AttributeRecord) (rest : List AttributeRecord),
      renderFetches (instanceLoop st k (first :: rest) 0).trace = unitCalls st k false first) := by
  refine ⟨by decide, by decide, rfl, rfl, ?_⟩
  intro st k first rest
  rw [instanceLoop_zero]
  simp only [renderFetches_append, renderFetches_flatMap_true, renderFetches_unitCalls_false,
    List.append_nil]

theorem forEach_eq_of_mem {α : Type} (l : List α) (body : α → Outcome Unit)
    (f : α → List Event) (h : ∀ a ∈ l, body a = ⟨f a, .ok ()⟩) :
    forEach l body = ⟨l.flatMap f, .ok ()⟩ := by
  rw [forEach_eq l body (fun a ha => by rw [h a ha])]
  congr 1
  apply List.flatMap_congr
  intro a ha
  rw [h a ha]

/-- The calls of `loadInstances` on a flat listing none of whose keys is
inherited from `Object.prototype`: the listing request, `setTotal` with the
size of each group, then the fetches of each group, the groups being those of
the distinct keys of the listing. -/
theorem loadInstances_eq (srv : Server) (targets : List Target) (L : List AttributeRecord)
    (hL : flatListing srv.instanceList "Failed to fetch instances" = .ok L)
    (hproto : ∀ r ∈ L, ∀ k, seriesKey r = some k → k ∉ objectPrototypeKeys) :
    ∃ keys : List String, keys.Nodup ∧ (∀ k, k ∈ keys ↔ ∃ r ∈ L, seriesKey r = some k) ∧
      loadInstances srv targets =
        ⟨.fetch .instanceList ::
          (keys.map (fun k => .setTotal k (groupOf L k).length)
            ++ keys.flatMap (groupFetches L)), .ok ()⟩ := by
  obtain ⟨G, hG, hnd, hgrp, hkeys⟩ := groupLoop_spec L [] [] groupsOf_nil hproto
  rw [List.nil_append] at hgrp hkeys
  have hperm := objectKeys_perm G
  have hentry : ∀ k ∈ objectKeys G, ∃ grp, ownProperty G k = some grp ∧
      grp.instances = groupOf L k ∧
      grp.studyUid = (groupOf L k).head?.bind (·.studyInstanceUID) := by
    intro k hk
    have hk2 : k ∈ G.map Prod.fst := hperm.subset hk
    obtain ⟨⟨k3, grp⟩, hmem, hfst⟩ := List.mem_map.mp hk2
    simp only at hfst
    subst hfst
    obtain ⟨h1, _, h3⟩ := hgrp k3 grp hmem
    exact ⟨grp, ownProperty_of_mem G hnd k3 grp hmem, h1, h3⟩
  refine ⟨objectKeys G, hperm.nodup_iff.mpr hnd, ?_, ?_⟩
  · intro k
    rw [hperm.mem_iff]
    constructor
    · intro hk
      obtain ⟨⟨k3, grp⟩, hmem, hfst⟩ := List.mem_map.mp hk
      simp only at hfst
      subst hfst
      obtain ⟨h1, h2, _⟩ := hgrp k3 grp hmem
      rw [h1] at h2
      obtain ⟨r, hr⟩ := List.exists_mem_of_ne_nil _ h2
      simp only [groupOf, List.mem_filter, decide_eq_true_eq] at hr
      exact ⟨r, hr.1, hr.2⟩
    · rintro ⟨r, hr, hk⟩
      exact hkeys r hr k hk
  · unfold loadInstances
    rw [tryFlat_eq, hL]
    simp only [bind_eq]
    rw [hG, bind_mk_ok]
    have hloop1 : (forEach (objectKeys G) fun seriesUid =>
        match ownProperty G seriesUid with
        | none => raise "TypeError"
        | some group => emit (.setTotal seriesUid group.instances.length))
        = ⟨(objectKeys G).flatMap fun k => [.setTotal k (groupOf L k).length], .ok ()⟩ := by
      apply forEach_eq_of_mem
      intro k hk
      obtain ⟨grp, h1, h2, _⟩ := hentry k hk
      simp only [h1, h2]
      rfl
    have hloop2 : (forEach (objectKeys G) fun seriesUid =>
        match ownProperty G seriesUid with
        | none => raise "TypeError"
        | some group => instanceLoop group.studyUid seriesUid group.instances 0)
        = ⟨(objectKeys G).flatMap (groupFetches L), .ok ()⟩ := by
      apply forEach_eq_of_mem
      intro k hk
      obtain ⟨grp, h1, h2, h3⟩ := hentry k hk
      simp only [h1, h2, h3, instanceLoop_zero, groupFetches]
      cases groupOf L k <;> rfl
    rw [hloop1, bind_mk_ok, hloop2, tryCatch_ok]
    have hmap : ∀ ks : List String,
        (ks.flatMap fun k => [Event.setTotal k (groupOf L k).length])
          = ks.map fun k => Event.setTotal k (groupOf L k).length := by
      intro ks
      induction ks with
      | nil => rfl
      | cons k rest ih => simp [List.flatMap_cons, ih]
    simp [hmap]

/-- C7, the claim at a counterexample: in the flat listing of `mixedStudyServer`
the instance `B` of series `X` names study `S2`, but it is fetched with `S1`,
the study of the first record of its group, and never with `S2`; and for the
SeriesInstanceUID `constructor`, which every object inherits, no group is
created and the loop ends in the error banner. -/
theorem unit_fetched_with_study_of_group :
    (loadInstances mixedStudyServer []).trace
      = [.fetch .instanceList, .setTotal "X" 2,
         .loadInstanceWadoRs (some "S1") "X" "A" false,
         .loadInstanceWadoRs (some "S1") "X" "B" true] ∧
    ¬ (∃ onlyLoad, Event.loadInstanceWadoRs (some "S2") "X" "B" onlyLoad
      ∈ (loadInstances mixedStudyServer []).trace) ∧
    (loadInstances prototypeKeyServer []).trace
      = [.fetch .instanceList, .consoleError "Failed to load instances:",
         .showDicomStatus "Error loading instances: TypeError" true] := by
  decide

/-- C7 as amended: for a flat listing `L` none of whose SeriesInstanceUIDs is a
property name of `Object.prototype`, `loadInstances` completes and its groups
are those of the distinct truthy SeriesInstanceUIDs of `L`: their number is
the number of distinct keys, every keyed record lies in the group of its own
key and in no other, each group is a sub-list of `L` (listing order kept),
`setTotal` is called once per group with the group size, and the fetches of a
group are its units that carry a SOPInstanceUID, in order, with the group key
as series and the StudyInstanceUID of the first record of the group, which is
the StudyInstanceUID of the unit itself whenever the records of the group
agree on it. -/
theorem instances_grouped_by_series (srv : Server) (targets : List Target)
    (L : List AttributeRecord)
    (hL : flatListing srv.instanceList "Failed to fetch instances" = .ok L)
    (hproto : ∀ r ∈ L, ∀ k ∈ seriesKey r, k ∉ objectPrototypeKeys) :
    ∃ keys : List String,
      keys.Nodup ∧ (∀ k, k ∈ keys ↔ ∃ r ∈ L, seriesKey r = some k) ∧
      keys.length = (L.filterMap seriesKey).dedup.length ∧
      (∀ r ∈ L, ∀ k, seriesKey r = some k →
        r ∈ groupOf L k ∧ ∀ k2, r ∈ groupOf L k2 → k2 = k) ∧
      (∀ k, (groupOf L k).Sublist L) ∧
      (loadInstances srv targets).result = .ok () ∧
      (loadInstances srv targets).trace
        = .fetch .instanceList ::
          (keys.map (fun k => .setTotal k (groupOf L k).length)
            ++ keys.flatMap (groupFetches L)) ∧
      (∀ k first rest, groupOf L k = first :: rest →
        groupFetches L k
          = unitCalls first.studyInstanceUID k false first
            ++ rest.flatMap (unitCalls first.studyInstanceUID k true)) ∧
      (∀ k r, r ∈ groupOf L k →
        (∀ r2 ∈ groupOf L k, r2.studyInstanceUID = r.studyInstanceUID) →
        ∃ onlyLoad, unitCalls r.studyInstanceUID k onlyLoad r ⊆ groupFetches L k) := by
  obtain ⟨keys, hnd, hmem, hrun⟩ := loadInstances_eq srv targets L hL
    (fun r hr k hk => hproto r hr k hk)
  refine ⟨keys, hnd, hmem, ?_, ?_, ?_, by rw [hrun], by rw [hrun], ?_, ?_⟩
  · apply List.Perm.length_eq
    rw [List.perm_ext_iff_of_nodup hnd (List.nodup_dedup _)]
    intro k
    rw [hmem, List.mem_dedup, List.mem_filterMap]
  · intro r hr k hk
    refine ⟨by simp [groupOf, hr, hk], ?_⟩
    intro k2 h2
    simp only [groupOf, List.mem_filter, decide_eq_true_eq] at h2
    rw [hk] at h2
    cases h2.2
    rfl
  · intro k
    exact List.filter_sublist _
  · intro k first rest hg
    simp only [groupFetches, hg]
  · intro k r hr hsame
    unfold groupFetches
    cases hg : groupOf L k with
    | nil => rw [hg] at hr; cases hr
    | cons first rest =>
      rw [hg] at hr hsame
      have hfirst : first.studyInstanceUID = r.studyInstanceUID :=
        hsame first (List.mem_cons_self _ _)
      simp only [hfirst]
      rcases List.mem_cons.mp hr with h | h
      · subst h
        exact ⟨false, List.subset_append_left _ _⟩
      · refine ⟨true, ?_⟩
        intro e he
        exact List.mem_append_right _ (List.mem_flatMap.mpr ⟨r, h, he⟩)

/-- C7 as amended, at the flat listing of `threeSeriesServer`. -/
theorem instances_grouped_by_series_witness :
    flatListing threeSeriesServer.instanceList "Failed to fetch instances"
      = .ok (exampleSeries ++ [exampleRecord "Z" "D" (some 1)]) ∧
    (∀ r ∈ exampleSeries ++ [exampleRecord "Z" "D" (some 1)],
      ∀ k ∈ seriesKey r, k ∉ objectPrototypeKeys) ∧
    ∃ keys : List String,
      keys.Nodup ∧
      (∀ k, k ∈ keys ↔
        ∃ r ∈ exampleSeries ++ [exampleRecord "Z" "D" (some 1)], seriesKey r = some k) ∧
      keys.length
        = ((exampleSeries ++ [exampleRecord "Z" "D" (some 1)]).filterMap seriesKey).dedup.length ∧
      (∀ r ∈ exampleSeries ++ [exampleRecord "Z" "D" (some 1)], ∀ k, seriesKey r = some k →
        r ∈ groupOf (exampleSeries ++ [exampleRecord "Z" "D" (some 1)]) k ∧
        ∀ k2, r ∈ groupOf (exampleSeries ++ [exampleRecord "Z" "D" (some 1)]) k2 → k2 = k) ∧
      (∀ k, (groupOf (exampleSeries ++ [exampleRecord "Z" "D" (some 1)]) k).Sublist
        (exampleSeries ++ [exampleRecord "Z" "D" (some 1)])) ∧
      (loadInstances threeSeriesServer []).result = .ok () ∧
      (loadInstances threeSeriesServer []).trace
        = .fetch .instanceList ::
          (keys.map (fun k =>
              .setTotal k (groupOf (exampleSeries ++ [exampleRecord "Z" "D" (some 1)]) k).length)
            ++ keys.flatMap (groupFetches (exampleSeries ++ [exampleRecord "Z" "D" (some 1)]))) ∧
      (∀ k first rest,
        groupOf (exampleSeries ++ [exampleRecord "Z" "D" (some 1)]) k = first :: rest →
        groupFetches (exampleSeries ++ [exampleRecord "Z" "D" (some 1)]) k
          = unitCalls first.studyInstanceUID k false first
            ++ rest.flatMap (unitCalls first.studyInstanceUID k true)) ∧
      (∀ k r, r ∈ groupOf (exampleSeries ++ [exampleRecord "Z" "D" (some 1)]) k →
        (∀ r2 ∈ groupOf (exampleSeries ++ [exampleRecord "Z" "D" (some 1)]) k,
          r2.studyInstanceUID = r.studyInstanceUID) →
        ∃ onlyLoad, unitCalls r.studyInstanceUID k onlyLoad r
          ⊆ groupFetches (exampleSeries ++ [exampleRecord "Z" "D" (some 1)]) k) :=
  ⟨rfl, by decide,
    instances_grouped_by_series threeSeriesServer []
      (exampleSeries ++ [exampleRecord "Z" "D" (some 1)]) rfl (by decide)⟩

theorem totalsOf_append (s : String) (a b : List Event) :
    totalsOf s (a ++ b) = totalsOf s a ++ totalsOf s b := by
  induction a with
  | nil => rfl
  | cons e rest ih =>
    cases e <;> simp only [List.cons_append, totalsOf] <;> first | exact ih | skip
    split <;> simp [ih]

theorem unitFetchesOf_append (s : String) (a b : List Event) :
    unitFetchesOf s (a ++ b) = unitFetchesOf s a ++ unitFetchesOf s b := by
  induction a with
  | nil => rfl
  | cons e rest ih =>
    cases e <;> simp only [List.cons_append, unitFetchesOf] <;> first | exact ih | skip
    split <;> simp [ih]

theorem balanced_nil (s : String) : Balanced s [] := rfl

theorem balanced_append (s : String) (a b : List Event) (ha : Balanced s a)
    (hb : Balanced s b) : Balanced s (a ++ b) := by
  unfold Balanced at *
  rw [totalsOf_append, unitFetchesOf_append, List.sum_append, List.length_append, ha, hb]

theorem balanced_flatMap {α : Type} (s : String) (l : List α) (f : α → List Event)
    (h : ∀ a ∈ l, Balanced s (f a)) : Balanced s (l.flatMap f) := by
  induction l with
  | nil => exact balanced_nil s
  | cons a rest ih =>
    rw [List.flatMap_cons]
    exact balanced_append s _ _ (h a (List.mem_cons_self _ _))
      (ih fun x hx => h x (List.mem_cons_of_mem _ hx))

/-- A list of events none of which is a `setTotal` or a unit fetch. -/
theorem balanced_of_neutral (s : String) (t : List Event)
    (h : ∀ e ∈ t, e.isSetTotal = false ∧ e.isUnitFetch = false) : Balanced s t := by
  induction t with
  | nil => exact balanced_nil s
  | cons e rest ih =>
    have he := h e (List.mem_cons_self _ _)
    have hrest := ih fun x hx => h x (List.mem_cons_of_mem _ hx)
    unfold Balanced at *
    cases e <;> simp_all [totalsOf, unitFetchesOf, Event.isSetTotal, Event.isUnitFetch]

theorem fetchStudySeries_neutral (srv : Server) (st : String) :
    ∀ e ∈ (fetchStudySeries srv st).trace, e.isSetTotal = false ∧ e.isUnitFetch = false := by
  intro e he
  rw [fetchStudySeries_eq] at he
  simp only [List.mem_cons] at he
  rcases he with he | he
  · subst he; exact ⟨rfl, rfl⟩
  · split at he
    · simp only [List.mem_singleton] at he
      subst he; exact ⟨rfl, rfl⟩
    · simp at he

theorem fetchSeriesInstances_neutral (srv : Server) (st se : String) :
    ∀ e ∈ (fetchSeriesInstances srv st se).trace,
      e.isSetTotal = false ∧ e.isUnitFetch = false := by
  intro e he
  rw [fetchSeriesInstances_eq] at he
  simp only [List.mem_cons] at he
  rcases he with he | he
  · subst he; exact ⟨rfl, rfl⟩
  · split at he
    · simp only [List.mem_singleton] at he
      subst he; exact ⟨rfl, rfl⟩
    · simp at he

theorem totalsOf_unitCalls (s : String) (st : Option String) (se : String) (o : Bool)
    (M : List AttributeRecord) : totalsOf s (M.flatMap (unitCalls st se o)) = [] := by
  induction M with
  | nil => rfl
  | cons r rest ih =>
    rw [List.flatMap_cons, totalsOf_append, ih]
    unfold unitCalls
    split <;> rfl

theorem unitFetchesOf_unitCalls_length (s : String) (st : Option String) (se : String)
    (o : Bool) (M : List AttributeRecord) (hsop : ∀ r ∈ M, HasSop r) :
    (unitFetchesOf s (M.flatMap (unitCalls st se o))).length
      = if se = s then M.length else 0 := by
  induction M with
  | nil => simp [unitFetchesOf]
  | cons r rest ih =>
    rw [List.flatMap_cons, unitFetchesOf_append, List.length_append,
      ih fun x hx => hsop x (List.mem_cons_of_mem _ hx),
      unitCalls_of_hasSop st se o r (hsop r (List.mem_cons_self _ _))]
    by_cases h : se = s
    · simp [unitFetchesOf, unitCall, h]; omega
    · simp [unitFetchesOf, unitCall, h]

/-- The schedule of a list of units that all carry a SOPInstanceUID, preceded by
`setTotal` with the length of the list, is balanced. -/
theorem balanced_schedule (s : String) (st : Option String) (se : String)
    (M : List AttributeRecord) (hne : M ≠ []) (hsop : ∀ r ∈ M, HasSop r) :
    Balanced s (.setTotal se M.length :: (loadSeriesWadoRs st se M).trace) := by
  obtain ⟨head, hhead⟩ := firstInstanceIndex_valid M hne
  have hlt : firstInstanceIndex M < M.length := by
    rcases List.getElem?_eq_some.mp hhead with ⟨h, _⟩
    exact h
  have hmem : head ∈ M := List.getElem?_mem hhead
  rw [loadSeriesWadoRs_eq st se M head hhead]
  have hsplit : unitCalls st se false head
      ++ (M.eraseIdx (firstInstanceIndex M)).flatMap (unitCalls st se true)
      = [head].flatMap (unitCalls st se false)
        ++ (M.eraseIdx (firstInstanceIndex M)).flatMap (unitCalls st se true) := by
    simp
  have herase : ∀ r ∈ M.eraseIdx (firstInstanceIndex M), HasSop r :=
    fun r hr => hsop r ((List.eraseIdx_sublist _ _).subset hr)
  unfold Balanced
  simp only [totalsOf, unitFetchesOf]
  rw [hsplit, totalsOf_append, totalsOf_unitCalls, totalsOf_unitCalls, unitFetchesOf_append,
    List.length_append, unitFetchesOf_unitCalls_length s st se false [head]
      (by intro r hr; simp only [List.mem_singleton] at hr; subst hr; exact hsop _ hmem),
    unitFetchesOf_unitCalls_length s st se true _ herase, List.length_eraseIdx]
  by_cases h : se = s
  · simp [h, hlt]; omega
  · simp [h]

theorem balanced_loadListedSeries (srv : Server) (s st se : String)
    (hsop : ∀ r ∈ listingOf (srv.seriesInstances st se), HasSop r) :
    Balanced s (loadListedSeries srv st se).trace := by
  rw [loadListedSeries_eq]
  simp only
  rw [List.append_assoc]
  apply balanced_append
  · exact balanced_of_neutral s _ (fetchSeriesInstances_neutral srv st se)
  · by_cases hne : listingOf (srv.seriesInstances st se) = []
    · rw [hne]
      exact balanced_nil s
    · have hlen : (listingOf (srv.seriesInstances st se)).length > 0 := List.length_pos.mpr hne
      rw [if_pos hlen]
      exact balanced_schedule s (some st) se _ hne hsop

theorem balanced_loadSpecifiedInstancesOfSeries (srv : Server) (uids : List String)
    (s st se : String) : Balanced s (loadSpecifiedInstancesOfSeries srv uids st se).trace := by
  rw [loadSpecifiedInstancesOfSeries_eq]
  simp only
  apply balanced_append
  · exact balanced_of_neutral s _ (fetchSeriesInstances_neutral srv st se)
  · split
    · exact balanced_nil s
    · rename_i hne
      rw [loadFilteredInstances_eq_loadSeriesWadoRs]
      apply balanced_schedule s (some st) se _ hne
      intro r hr
      have := (List.mem_filter.mp hr).2
      exact ((matchesSop_iff uids r).mp this).1

theorem listingOf_of_flatListing (reply : FetchResult (List AttributeRecord)) (msg : String)
    (L : List AttributeRecord) (h : flatListing reply msg = .ok L) : listingOf reply = L := by
  unfold flatListing at h
  unfold listingOf
  cases reply with
  | rejected m => cases h
  | resolved res =>
    rcases res with ⟨ok, status, text, body⟩
    cases ok
    · cases h
    · simp only [if_true] at h
      subst h
      rfl

theorem balanced_groupFetches (s : String) (L : List AttributeRecord) (k : String)
    (hsop : ∀ r ∈ L, HasSop r) :
    totalsOf s (groupFetches L k) = [] ∧
    (unitFetchesOf s (groupFetches L k)).length = if k = s then (groupOf L k).length else 0 := by
  have hsub : ∀ r ∈ groupOf L k, HasSop r := fun r hr => hsop r (List.mem_filter.mp hr).1
  unfold groupFetches
  cases hg : groupOf L k with
  | nil => simp [totalsOf, unitFetchesOf]
  | cons first rest =>
    rw [hg] at hsub
    have hsplit : unitCalls first.studyInstanceUID k false first
        ++ rest.flatMap (unitCalls first.studyInstanceUID k true)
        = [first].flatMap (unitCalls first.studyInstanceUID k false)
          ++ rest.flatMap (unitCalls first.studyInstanceUID k true) := by
      simp
    simp only
    rw [hsplit, totalsOf_append, totalsOf_unitCalls, totalsOf_unitCalls, unitFetchesOf_append,
      List.length_append,
      unitFetchesOf_unitCalls_length s _ k false [first]
        (by intro r hr; simp only [List.mem_singleton] at hr; subst hr
            exact hsub _ (List.mem_cons_self _ _)),
      unitFetchesOf_unitCalls_length s _ k true rest
        (fun r hr => hsub r (List.mem_cons_of_mem _ hr))]
    by_cases h : k = s
    · simp [h]; omega
    · simp [h]

theorem balanced_groups (s : String) (L : List AttributeRecord) (keys : List String)
    (hsop : ∀ r ∈ L, HasSop r) :
    Balanced s (keys.map (fun k => Event.setTotal k (groupOf L k).length)
      ++ keys.flatMap (groupFetches L)) := by
  have h1 : ∀ ks : List String,
      (totalsOf s (ks.map fun k => Event.setTotal k (groupOf L k).length)).sum
        = (ks.map fun k => if k = s then (groupOf L k).length else 0).sum ∧
      unitFetchesOf s (ks.map fun k => Event.setTotal k (groupOf L k).length) = [] := by
    intro ks
    induction ks with
    | nil => exact ⟨rfl, rfl⟩
    | cons k rest ih =>
      by_cases h : k = s
      · simp [totalsOf, unitFetchesOf, h, ih.1, ih.2]
      · simp [totalsOf, unitFetchesOf, h, ih.1, ih.2]
  have h2 : ∀ ks : List String,
      totalsOf s (ks.flatMap (groupFetches L)) = [] ∧
      (unitFetchesOf s (ks.flatMap (groupFetches L))).length
        = (ks.map fun k => if k = s then (groupOf L k).length else 0).sum := by
    intro ks
    induction ks with
    | nil => exact ⟨rfl, rfl⟩
    | cons k rest ih =>
      obtain ⟨g1, g2⟩ := balanced_groupFetches s L k hsop
      rw [List.flatMap_cons, totalsOf_append, unitFetchesOf_append, List.length_append, g1, g2,
        ih.1, ih.2]
      simp
  unfold Balanced
  rw [totalsOf_append, unitFetchesOf_append, List.sum_append, List.length_append,
    (h1 keys).1, (h1 keys).2, (h2 keys).1, (h2 keys).2]
  simp

theorem balanced_loadInstances (srv : Server) (targets : List Target) (s : String)
    (hflat : ∀ r ∈ listingOf srv.instanceList, HasSop r) :
    Balanced s (loadInstances srv targets).trace := by
  cases hL : flatListing srv.instanceList "Failed to fetch instances" with
  | error e =>
    have : loadInstances srv targets =
        ⟨[.fetch .instanceList, .consoleError "Failed to load instances:",
          .showDicomStatus ("Error loading instances: " ++ e) true], .ok ()⟩ := by
      unfold loadInstances
      rw [tryFlat_eq, hL]
      rfl
    rw [this]
    rfl
  | ok L =>
    rw [listingOf_of_flatListing _ _ L hL] at hflat
    by_cases hproto : ∃ r ∈ L, ∃ k, seriesKey r = some k ∧ k ∈ objectPrototypeKeys
    · have : loadInstances srv targets =
          ⟨[.fetch .instanceList, .consoleError "Failed to load instances:",
            .showDicomStatus ("Error loading instances: " ++ "TypeError") true], .ok ()⟩ := by
        unfold loadInstances
        rw [tryFlat_eq, hL]
        simp only [bind_eq]
        rw [groupLoop_throws L [] hproto, bind_mk_error]
        rfl
      rw [this]
      rfl
    · obtain ⟨keys, _, _, hrun⟩ := loadInstances_eq srv targets L hL (by
        intro r hr k hk hmem
        exact hproto ⟨r, hr, k, hk, hmem⟩)
      rw [hrun]
      exact balanced_append s [.fetch .instanceList] _ rfl (balanced_groups s L keys hflat)

theorem balanced_loadSeries (srv : Server) (targets : List Target) (s : String)
    (hsop : ∀ st se, ∀ r ∈ listingOf (srv.seriesInstances st se), HasSop r) :
    Balanced s (loadSeries srv targets).trace := by
  rw [loadSeries_eq]
  cases flatListing srv.seriesList "Failed to fetch series list" with
  | error e => rfl
  | ok l =>
    apply balanced_append s [.fetch .seriesList] _ rfl
    apply balanced_flatMap
    intro series _
    cases truthy? series.studyInstanceUID <;> cases truthy? series.seriesInstanceUID <;>
      first | exact balanced_nil s | exact balanced_loadListedSeries srv s _ _ (hsop _ _)

theorem balanced_loadStudies (srv : Server) (targets : List Target) (s : String)
    (hsop : ∀ st se, ∀ r ∈ listingOf (srv.seriesInstances st se), HasSop r) :
    Balanced s (loadStudies srv targets).trace := by
  rw [loadStudies_eq]
  apply balanced_flatMap
  intro t _
  apply balanced_append
  · exact balanced_of_neutral s _ (fetchStudySeries_neutral srv _)
  · apply balanced_flatMap
    intro series _
    cases truthy? series.seriesInstanceUID with
    | none => exact balanced_nil s
    | some se => exact balanced_loadListedSeries srv s _ se (hsop _ _)

theorem balanced_loadSpecifiedSeries (srv : Server) (self : Loader) (targets : List Target)
    (s : String) (hsop : ∀ st se, ∀ r ∈ listingOf (srv.seriesInstances st se), HasSop r) :
    Balanced s (loadSpecifiedSeries srv self targets).trace := by
  cases hspec : self.specifiedSeriesUid with
  | none =>
    unfold loadSpecifiedSeries
    rw [hspec]
    rfl
  | some spec =>
    rw [loadSpecifiedSeries_eq srv self spec hspec]
    apply balanced_flatMap
    intro t _
    apply balanced_append
    · exact balanced_of_neutral s _ (fetchStudySeries_neutral srv _)
    · apply balanced_flatMap
      intro series _
      cases truthy? series.seriesInstanceUID with
      | none => exact balanced_nil s
      | some se =>
        simp only
        split
        · exact balanced_loadListedSeries srv s _ se (hsop _ _)
        · exact balanced_nil s

theorem balanced_loadSpecifiedInstances (srv : Server) (self : Loader) (targets : List Target)
    (targetType s : String) :
    Balanced s (loadSpecifiedInstances srv self targets targetType).trace := by
  cases hspec : self.specifiedSopUid with
  | none =>
    unfold loadSpecifiedInstances
    rw [hspec]
    rfl
  | some spec =>
    by_cases h1 : targetType = "study"
    · subst h1
      rw [loadSpecifiedInstances_study_eq srv self spec hspec]
      apply balanced_flatMap
      intro t _
      apply balanced_append
      · exact balanced_of_neutral s _ (fetchStudySeries_neutral srv _)
      · apply balanced_flatMap
        intro series _
        cases truthy? series.seriesInstanceUID with
        | none => exact balanced_nil s
        | some se => exact balanced_loadSpecifiedInstancesOfSeries srv _ s _ se
    · by_cases h2 : targetType = "series"
      · subst h2
        rw [loadSpecifiedInstances_series_eq srv self spec hspec]
        cases flatListing srv.seriesList "Failed to fetch series list" with
        | error e => rfl
        | ok l =>
          apply balanced_append s [.fetch .seriesList] _ rfl
          apply balanced_flatMap
          intro series _
          cases truthy? series.studyInstanceUID <;> cases truthy? series.seriesInstanceUID <;>
            first
            | exact balanced_nil s
            | exact balanced_loadSpecifiedInstancesOfSeries srv _ s _ _
      · unfold loadSpecifiedInstances
        rw [hspec]
        simp only [if_neg h1, if_neg h2]
        rfl

/-- C4, the claim at a counterexample: the only series of `missingSopServer`
lists two records, the first without SOPInstanceUID; `loadStudies` calls
`setTotal("X", 2)` and issues one unit fetch for `X`. -/
theorem total_exceeds_fetches_without_sop :
    (loadStudies missingSopServer [{ targetId := "S" }]).trace
      = [.fetch (.studySeries "S"), .fetch (.seriesInstances "S" "X"), .setTotal "X" 2,
         .loadInstanceWadoRs (some "S") "X" "A" true] ∧
    totalsOf "X" (loadStudies missingSopServer [{ targetId := "S" }]).trace = [2] ∧
    (unitFetchesOf "X" (loadStudies missingSopServer [{ targetId := "S" }]).trace).length = 1 := by
  decide

/-- C4 as amended: when every listed instance record carries a SOPInstanceUID,
then in each of `loadStudies`, `loadSeries`, `loadSpecifiedSeries`,
`loadSpecifiedInstances` and `loadInstances`, and for every series, the totals
passed to `setTotal` for the series add up to the number of unit fetches
issued for it (exactly `n` fetches when `setTotal(seriesUid, n)` is its only
call). -/
theorem totals_match_fetches (srv : Server) (self : Loader) (targets : List Target)
    (targetType seriesUid : String)
    (hsop : ∀ st se, ∀ r ∈ listingOf (srv.seriesInstances st se), HasSop r)
    (hflat : ∀ r ∈ listingOf srv.instanceList, HasSop r) :
    (totalsOf seriesUid (loadStudies srv targets).trace).sum
      = (unitFetchesOf seriesUid (loadStudies srv targets).trace).length ∧
    (totalsOf seriesUid (loadSeries srv targets).trace).sum
      = (unitFetchesOf seriesUid (loadSeries srv targets).trace).length ∧
    (totalsOf seriesUid (loadSpecifiedSeries srv self targets).trace).sum
      = (unitFetchesOf seriesUid (loadSpecifiedSeries srv self targets).trace).length ∧
    (totalsOf seriesUid (loadSpecifiedInstances srv self targets targetType).trace).sum
      = (unitFetchesOf seriesUid
          (loadSpecifiedInstances srv self targets targetType).trace).length ∧
    (totalsOf seriesUid (loadInstances srv targets).trace).sum
      = (unitFetchesOf seriesUid (loadInstances srv targets).trace).length :=
  ⟨balanced_loadStudies srv targets seriesUid hsop,
    balanced_loadSeries srv targets seriesUid hsop,
    balanced_loadSpecifiedSeries srv self targets seriesUid hsop,
    balanced_loadSpecifiedInstances srv self targets targetType seriesUid,
    balanced_loadInstances srv targets seriesUid hflat⟩

theorem threeSeriesServer_hasSop :
    ∀ st se, ∀ r ∈ listingOf (threeSeriesServer.seriesInstances st se), HasSop r := by
  intro st se
  by_cases hX : se = "X"
  · subst hX
    show ∀ r ∈ exampleSeries, HasSop r
    decide
  · by_cases hZ : se = "Z"
    · subst hZ
      show ∀ r ∈ [exampleRecord "Z" "D" (some 1)], HasSop r
      decide
    · intro r hr
      simp [threeSeriesServer, hX, hZ, listingOf] at hr

/-- C4 as amended, for series `X` of `threeSeriesServer`. -/
theorem totals_match_fetches_witness :
    (∀ st se, ∀ r ∈ listingOf (threeSeriesServer.seriesInstances st se), HasSop r) ∧
    (∀ r ∈ listingOf threeSeriesServer.instanceList, HasSop r) ∧
    (totalsOf "X" (loadStudies threeSeriesServer [{ targetId := "S" }]).trace).sum
      = (unitFetchesOf "X" (loadStudies threeSeriesServer [{ targetId := "S" }]).trace).length ∧
    (totalsOf "X" (loadSeries threeSeriesServer [{ targetId := "S" }]).trace).sum
      = (unitFetchesOf "X" (loadSeries threeSeriesServer [{ targetId := "S" }]).trace).length ∧
    (totalsOf "X"
        (loadSpecifiedSeries threeSeriesServer studyShareWithSeriesFilter
          [{ targetId := "S" }]).trace).sum
      = (unitFetchesOf "X"
          (loadSpecifiedSeries threeSeriesServer studyShareWithSeriesFilter
            [{ targetId := "S" }]).trace).length ∧
    (totalsOf "X"
        (loadSpecifiedInstances threeSeriesServer studyShareWithSeriesFilter
          [{ targetId := "S" }] "study").trace).sum
      = (unitFetchesOf "X"
          (loadSpecifiedInstances threeSeriesServer studyShareWithSeriesFilter
            [{ targetId := "S" }] "study").trace).length ∧
    (totalsOf "X" (loadInstances threeSeriesServer [{ targetId := "S" }]).trace).sum
      = (unitFetchesOf "X" (loadInstances threeSeriesServer [{ targetId := "S" }]).trace).length :=
  ⟨threeSeriesServer_hasSop, by decide,
    totals_match_fetches threeSeriesServer studyShareWithSeriesFilter [{ targetId := "S" }]
      "study" "X" threeSeriesServer_hasSop (by decide)⟩

/-- C13, the code at a failing input: an instance share (target `A`) opened with
the series filter `X` is loaded by `loadSpecifiedSeries`, which requests the
series of a study named by the target id `A` and, that listing being empty,
fetches no unit, whereas `loadInstances` would fetch the four units of the flat
listing.  In general an instance share with a series filter runs
`loadSpecifiedSeries` on its targets, and one without runs `loadInstances`,
whatever the SOP filter. -/
theorem instance_share_with_series_filter_lists_studies :
    (loadByTargetType threeSeriesServer instanceShareWithSeriesFilter).trace
      = [.showDicomStatus "Loading shared images..." false, .fetch (.studySeries "A")] ∧
    (loadInstances threeSeriesServer [{ targetId := "A" }]).trace
      = [.fetch .instanceList, .setTotal "X" 3, .setTotal "Z" 1,
         .loadInstanceWadoRs (some "S") "X" "A" false,
         .loadInstanceWadoRs (some "S") "X" "B" true,
         .loadInstanceWadoRs (some "S") "X" "C" true,
         .loadInstanceWadoRs (some "S") "Z" "D" false] ∧
    (∀ (srv : Server) (self : Loader) (targets : List Target),
      self.shareInfo = some { targetType := "instance", targets := targets } →
      truthy self.specifiedSeriesUid = true →
      (loadByTargetType srv self).trace
        = .showDicomStatus "Loading shared images..." false ::
          (loadSpecifiedSeries srv self targets).trace ∧
      ∀ t ∈ targets, Event.fetch (.studySeries t.targetId) ∈ (loadByTargetType srv self).trace) ∧
    (∀ (srv : Server) (self : Loader) (targets : List Target),
      self.shareInfo = some { targetType := "instance", targets := targets } →
      truthy self.specifiedSeriesUid = false →
      (loadByTargetType srv self).trace
        = .showDicomStatus "Loading shared images..." false ::
          (loadInstances srv targets).trace) := by
  have h1 : ¬ ("instance" = "study") := by decide
  have h2 : ¬ ("instance" = "series") := by decide
  refine ⟨by decide, by decide, ?_, ?_⟩
  · intro srv self targets hinfo hser
    have htrace : (loadByTargetType srv self).trace
        = .showDicomStatus "Loading shared images..." false ::
          (loadSpecifiedSeries srv self targets).trace := by
      unfold loadByTargetType
      rw [hinfo]
      simp only [h1, h2, or_self, and_false, if_false, hser, and_self, if_true, bind_eq]
      rfl
    refine ⟨htrace, ?_⟩
    intro t ht
    rw [htrace]
    apply List.mem_cons_of_mem
    cases hspec : self.specifiedSeriesUid with
    | none => rw [hspec] at hser; cases hser
    | some spec =>
      rw [loadSpecifiedSeries_eq srv self spec hspec]
      apply List.mem_flatMap.mpr
      refine ⟨t, ht, ?_⟩
      rw [fetchStudySeries_eq]
      simp
  · intro srv self targets hinfo hser
    unfold loadByTargetType
    rw [hinfo]
    simp only [h1, h2, or_self, and_false, if_false, hser, Bool.false_eq_true, false_and,
      if_true, bind_eq]
    rfl

theorem shareWadorsLoader_eq (viewer : Viewer) (reply : FetchResult Bytes) (url : Endpoint)
    (onlyload : Bool) :
    shareWadorsLoader viewer reply url onlyload = (do
      emit (.showDicomStatus "Loading images..." false)
      emit .numOfFetchsIncrement
      andFinally
        (tryCatch (unitPipeline viewer reply url onlyload)
          (fun message => do
            emit (.consoleError "Fetch error:")
            emit (.showDicomStatus ("Error: " ++ message) true)))
        (emit (.finishOne url))) := rfl

/-- The calls of a unit whose pipeline failed with message `m`. -/
theorem shareWadorsLoader_failed (viewer : Viewer) (reply : FetchResult Bytes) (url : Endpoint)
    (onlyload : Bool) (m : String) (h : (unitPipeline viewer reply url onlyload).result = .error m) :
    (shareWadorsLoader viewer reply url onlyload).trace
      = [.showDicomStatus "Loading images..." false, .numOfFetchsIncrement]
        ++ (unitPipeline viewer reply url onlyload).trace
        ++ [.consoleError "Fetch error:", .showDicomStatus ("Error: " ++ m) true,
            .finishOne url] := by
  rw [shareWadorsLoader_eq]
  simp [bind_eq, emit, Outcome.bind, andFinally, tryCatch, h]

/-- The calls of a unit whose pipeline succeeded. -/
theorem shareWadorsLoader_succeeded (viewer : Viewer) (reply : FetchResult Bytes)
    (url : Endpoint) (onlyload : Bool)
    (h : (unitPipeline viewer reply url onlyload).result = .ok ()) :
    (shareWadorsLoader viewer reply url onlyload).trace
      = [.showDicomStatus "Loading images..." false, .numOfFetchsIncrement]
        ++ (unitPipeline viewer reply url onlyload).trace ++ [.finishOne url] := by
  rw [shareWadorsLoader_eq]
  simp [bind_eq, emit, Outcome.bind, andFinally, tryCatch, h]

theorem bannerAfter_append (b : Option (String × Bool)) (t u : List Event) :
    bannerAfter b (t ++ u) = bannerAfter (bannerAfter b t) u := by
  induction t generalizing b with
  | nil => rfl
  | cons e rest ih => cases e <;> simp only [List.cons_append, bannerAfter] <;> exact ih _

theorem bannerAfter_of_no_status (b : Option (String × Bool)) (t : List Event)
    (h : ∀ e ∈ t, ∀ msg isError, e ≠ .showDicomStatus msg isError) : bannerAfter b t = b := by
  induction t with
  | nil => rfl
  | cons e rest ih =>
    have hrest := ih fun x hx => h x (List.mem_cons_of_mem _ hx)
    have he := h e (List.mem_cons_self _ _)
    cases e <;> simp only [bannerAfter, hrest]
    rename_i msg isError
    exact absurd rfl (he msg isError)

theorem decodeAndDispatch_events (viewer : Viewer) (onlyload : Bool) (resBlob : Bytes)
    (e : Event) (he : e ∈ (decodeAndDispatch viewer onlyload resBlob).trace) :
    (∃ sop, e = .renderNow sop) ∨ (∃ sop, e = .registerOnly sop) := by
  unfold decodeAndDispatch at he
  rcases mem_trace_bind _ _ e he with h | ⟨bufs, h⟩
  · simp at h
  · obtain ⟨buf, _, h⟩ := mem_trace_forEach _ _ e h
    rcases mem_trace_bind _ _ e h with h | ⟨sop, h⟩
    · simp at h
    · split at h
      · simp only [List.mem_singleton] at h
        exact Or.inl ⟨sop, h⟩
      · simp only [List.mem_singleton] at h
        exact Or.inr ⟨sop, h⟩

/-- A pipeline that succeeded called `showDicomStatus` nowhere. -/
theorem unitPipeline_ok_no_status (viewer : Viewer) (reply : FetchResult Bytes) (url : Endpoint)
    (onlyload : Bool) (h : (unitPipeline viewer reply url onlyload).result = .ok ()) :
    ∀ e ∈ (unitPipeline viewer reply url onlyload).trace,
      ∀ msg isError, e ≠ .showDicomStatus msg isError := by
  intro e he msg isError heq
  subst heq
  cases reply with
  | rejected m => simp [unitPipeline, fetch, bind_eq, Outcome.bind] at h
  | resolved res =>
    rcases res with ⟨ok, status, text, body⟩
    cases ok with
    | false => simp [unitPipeline, fetch, checkStatus, bind_eq, Outcome.bind, emit, raise] at h
    | true =>
      cases body with
      | error m => simp [unitPipeline, fetch, checkStatus, bind_eq, Outcome.bind] at h
      | ok blob =>
        have hmem : Event.showDicomStatus msg isError
            ∈ (decodeAndDispatch viewer onlyload blob).trace := by
          simpa [unitPipeline, fetch, checkStatus, bind_eq, Outcome.bind] using he
        rcases decodeAndDispatch_events viewer onlyload blob _ hmem with ⟨sop, h2⟩ | ⟨sop, h2⟩ <;>
          cases h2

/-- C11, the claim at a counterexample: a unit whose request is rejected with
`Failed to fetch` is logged and then calls `showDicomStatus` with the error
flag; the banner, `Loading images...` when the unit was issued, is the error
message after settlement.  The same holds for a reply with status 404, where
the status check sets an error banner of its own as well. -/
theorem unit_failure_sets_error_banner :
    (shareWadorsLoader exampleViewer (.rejected "Failed to fetch")
        (.unit (some "S") "X" "A") true).trace
      = [.showDicomStatus "Loading images..." false, .numOfFetchsIncrement,
         .fetch (.unit (some "S") "X" "A"), .consoleError "Fetch error:",
         .showDicomStatus "Error: Failed to fetch" true,
         .finishOne (.unit (some "S") "X" "A")] ∧
    bannerAfter none
        (shareWadorsLoader exampleViewer (.rejected "Failed to fetch")
          (.unit (some "S") "X" "A") true).trace
      = some ("Error: Failed to fetch", true) ∧
    (shareWadorsLoader exampleViewer
        (.resolved { ok := false, status := 404, statusText := "Not Found", body := .ok [] })
        (.unit (some "S") "X" "A") true).trace
      = [.showDicomStatus "Loading images..." false, .numOfFetchsIncrement,
         .fetch (.unit (some "S") "X" "A"), .consoleError "HTTP error:",
         .showDicomStatus "Error: 404 Not Found" true, .consoleError "Fetch error:",
         .showDicomStatus "Error: HTTP error 404: Not Found" true,
         .finishOne (.unit (some "S") "X" "A")] := by
  refine ⟨by decide, by decide, by decide⟩

/-- C11 as amended: a unit whose pipeline fails with message `m` (a rejected
request, a non-success status, an unreadable body, an exception of the decode
stage) is logged and calls `showDicomStatus("Error: " + m, true)` before
`finishOne`, so that the banner after settlement is that error message
whatever it was before; a unit that succeeds makes no call with the error
flag and leaves the banner at `Loading images...`; and a failed flat listing
in `loadSeries` or `loadInstances` sets an error banner too, so that a
share-resolution failure is not the only one that does. -/
theorem unit_failure_banner (viewer : Viewer) (reply : FetchResult Bytes) (url : Endpoint)
    (onlyload : Bool) (before : Option (String × Bool)) :
    (∀ m, (unitPipeline viewer reply url onlyload).result = .error m →
      (shareWadorsLoader viewer reply url onlyload).trace
        = [.showDicomStatus "Loading images..." false, .numOfFetchsIncrement]
          ++ (unitPipeline viewer reply url onlyload).trace
          ++ [.consoleError "Fetch error:", .showDicomStatus ("Error: " ++ m) true,
              .finishOne url] ∧
      bannerAfter before (shareWadorsLoader viewer reply url onlyload).trace
        = some ("Error: " ++ m, true)) ∧
    ((unitPipeline viewer reply url onlyload).result = .ok () →
      (∀ e ∈ (shareWadorsLoader viewer reply url onlyload).trace, e.isErrorBanner = false) ∧
      bannerAfter before (shareWadorsLoader viewer reply url onlyload).trace
        = some ("Loading images...", false)) ∧
    (∀ m, reply = .rejected m → (unitPipeline viewer reply url onlyload).result = .error m) ∧
    (∀ res, reply = .resolved res → res.ok = false →
      (unitPipeline viewer reply url onlyload).result
        = .error ("HTTP error " ++ toString res.status ++ ": " ++ res.statusText)) ∧
    (∀ res m, reply = .resolved res → res.ok = true → res.body = .error m →
      (unitPipeline viewer reply url onlyload).result = .error m) ∧
    (∀ res blob m, reply = .resolved res → res.ok = true → res.body = .ok blob →
      viewer.multipartDecode blob = .error m →
      (unitPipeline viewer reply url onlyload).result = .error m) ∧
    (∀ (srv : Server) (targets : List Target) (m : String),
      flatListing srv.seriesList "Failed to fetch series list" = .error m →
      Event.showDicomStatus ("Error loading series: " ++ m) true
        ∈ (loadSeries srv targets).trace) ∧
    (∀ (srv : Server) (targets : List Target) (m : String),
      flatListing srv.instanceList "Failed to fetch instances" = .error m →
      Event.showDicomStatus ("Error loading instances: " ++ m) true
        ∈ (loadInstances srv targets).trace) := by
  refine ⟨?_, ?_, ?_, ?_, ?_, ?_, ?_, ?_⟩
  · intro m hm
    have htrace := shareWadorsLoader_failed viewer reply url onlyload m hm
    refine ⟨htrace, ?_⟩
    rw [htrace, bannerAfter_append]
    rfl
  · intro hok
    have htrace := shareWadorsLoader_succeeded viewer reply url onlyload hok
    have hnone := unitPipeline_ok_no_status viewer reply url onlyload hok
    refine ⟨?_, ?_⟩
    · intro e he
      rw [htrace] at he
      simp only [List.mem_append, List.mem_cons, List.mem_singleton, List.not_mem_nil,
        or_false] at he
      rcases he with ((he | he) | he) | he
      · subst he; rfl
      · subst he; rfl
      · cases e <;> try rfl
        rename_i msg isError
        exact absurd rfl (hnone _ he msg isError)
      · subst he; rfl
    · rw [htrace, bannerAfter_append, bannerAfter_append,
        bannerAfter_of_no_status _ _ hnone]
      rfl
  · intro m hr
    subst hr
    rfl
  · intro res hr hok
    subst hr
    rcases res with ⟨ok, status, text, body⟩
    simp only at hok
    subst hok
    rfl
  · intro res m hr hok hbody
    subst hr
    rcases res with ⟨ok, status, text, body⟩
    simp only at hok hbody
    subst hok
    subst hbody
    rfl
  · intro res blob m hr hok hbody hdec
    subst hr
    rcases res with ⟨ok, status, text, body⟩
    simp only at hok hbody
    subst hok
    subst hbody
    simp [unitPipeline, fetch, checkStatus, decodeAndDispatch, bind_eq, Outcome.bind, hdec]
  · intro srv targets m hm
    rw [loadSeries_eq, hm]
    simp
  · intro srv targets m hm
    have : loadInstances srv targets =
        ⟨[.fetch .instanceList, .consoleError "Failed to load instances:",
          .showDicomStatus ("Error loading instances: " ++ m) true], .ok ()⟩ := by
      unfold loadInstances
      rw [tryFlat_eq, hm]
      rfl
    rw [this]
    simp

theorem headsAwaited_two_calls (st1 : Option String) (se1 sop1 : String) (st2 : Option String)
    (se2 sop2 : String) (o2 : Bool) (rest : List Event) (pending : List Endpoint)
    (schedule : List (List Endpoint)) :
    headsAwaited
      (timeline (.loadInstanceWadoRs st1 se1 sop1 false ::
        .loadInstanceWadoRs st2 se2 sop2 o2 :: rest) pending schedule) [] = false := by
  simp [timeline, awaits, loadInstanceWadoRsReturn, headsAwaited]

/-- C12, the code at a failing input: `loadInstanceWadoRs` returns no value, so
the `await` on the head call suspends on nothing; in every session of
`loadSeriesWadoRs` on the three instances of series `X` the two tail fetches
are issued before the head fetch has settled, and in the session of
`loadStudies` on the three-series study in which no unit settles during the
listing requests the head of series `Z` is issued before the head of series
`X` has settled.  In general, for a list of at least two instances that carry
a SOPInstanceUID, no session of `loadSeriesWadoRs` awaits the head fetch. -/
theorem head_fetch_not_awaited :
    (∀ st se sop onlyLoad, loadInstanceWadoRsReturn st se sop onlyLoad = .undefined ∧
      awaits (loadInstanceWadoRsReturn st se sop onlyLoad) = none) ∧
    (∀ url onlyload, shareWadorsLoaderReturn url onlyload = .undefined) ∧
    (∀ schedule,
      timeline (loadSeriesWadoRs (some "S") "X" exampleSeries).trace [] schedule
        = [.call (.loadInstanceWadoRs (some "S") "X" "B" false),
           .call (.loadInstanceWadoRs (some "S") "X" "A" true),
           .call (.loadInstanceWadoRs (some "S") "X" "C" true),
           .settled (.unit (some "S") "X" "B"),
           .settled (.unit (some "S") "X" "A"),
           .settled (.unit (some "S") "X" "C")]) ∧
    (∀ schedule,
      headsAwaited (timeline (loadSeriesWadoRs (some "S") "X" exampleSeries).trace [] schedule) []
        = false) ∧
    timeline (loadStudies threeSeriesServer [{ targetId := "S" }]).trace [] []
      = [.call (.fetch (.studySeries "S")),
         .call (.fetch (.seriesInstances "S" "X")), .call (.setTotal "X" 3),
         .call (.loadInstanceWadoRs (some "S") "X" "B" false),
         .call (.loadInstanceWadoRs (some "S") "X" "A" true),
         .call (.loadInstanceWadoRs (some "S") "X" "C" true),
         .call (.fetch (.seriesInstances "S" "Y")),
         .call (.fetch (.seriesInstances "S" "Z")), .call (.setTotal "Z" 1),
         .call (.loadInstanceWadoRs (some "S") "Z" "D" false),
         .settled (.unit (some "S") "X" "B"),
         .settled (.unit (some "S") "X" "A"),
         .settled (.unit (some "S") "X" "C"),
         .settled (.unit (some "S") "Z" "D")] ∧
    headsAwaited (timeline (loadStudies threeSeriesServer [{ targetId := "S" }]).trace [] []) []
      = false ∧
    (∀ (st : Option String) (se : String) (instances : List AttributeRecord)
        (schedule : List (List Endpoint)),
      (∀ r ∈ instances, HasSop r) → 2 ≤ instances.length →
      headsAwaited (timeline (loadSeriesWadoRs st se instances).trace [] schedule) [] = false) := by
  refine ⟨fun _ _ _ _ => ⟨rfl, rfl⟩, fun _ _ => rfl, fun _ => rfl, fun _ => rfl, by decide,
    by decide, ?_⟩
  intro st se instances schedule hsop hlen
  have hne : instances ≠ [] := by
    intro h
    subst h
    simp at hlen
  obtain ⟨head, hhead⟩ := firstInstanceIndex_valid instances hne
  have hmem : head ∈ instances := List.getElem?_mem hhead
  have hlt : firstInstanceIndex instances < instances.length := by
    rcases List.getElem?_eq_some.mp hhead with ⟨h, _⟩
    exact h
  rw [loadSeriesWadoRs_eq st se instances head hhead,
    unitCalls_of_hasSop st se false head (hsop head hmem)]
  cases herase : instances.eraseIdx (firstInstanceIndex instances) with
  | nil =>
    have := congrArg List.length herase
    rw [List.length_eraseIdx, if_pos hlt] at this
    simp only [List.length_nil] at this
    omega
  | cons r rest =>
    have hr : HasSop r := by
      apply hsop r
      apply (List.eraseIdx_sublist instances (firstInstanceIndex instances)).subset
      rw [herase]
      exact List.mem_cons_self _ _
    simp only [List.flatMap_cons, unitCalls_of_hasSop st se true r hr]
    exact headsAwaited_two_calls st se _ st se _ true _ [] schedule

end ShareDicomLoader
